import Mathlib

/-!
Shallow embedding of the research-orchestration core of the Edge-of-Knowledge
repository: the frontier/depth classifier (src/lib/prompts.ts), the tool
executor (src/lib/tool-executor.ts) and the research agent loop
(src/lib/research-agent.ts).  External effects (the Gemini reasoning service,
the Semantic Scholar and DuckDuckGo providers, wall-clock readings) are
modelled as explicit environment parameters; JavaScript numbers are modelled
as Int/Nat/Rat, JavaScript truthiness of optional values is made explicit,
and untyped runtime objects that flow through unchecked casts are modelled as
records of optional fields so that a read of an absent field yields none
(JavaScript undefined).
-/

namespace EdgeOfKnowledge

/-! ## JavaScript-semantics helpers -/

/-- Model of the JS expression value-or-default for an optional number
(`x || d`): undefined and 0 are falsy. -/
def jsNumOr (v : Option Int) (d : Int) : Int :=
  match v with
  | none => d
  | some n => if n = 0 then d else n

/-- Model of the JS expression value-or-default for an optional count
(`x || d`) on a natural number. -/
def jsNatOr (v : Option Nat) (d : Nat) : Nat :=
  match v with
  | none => d
  | some 0 => d
  | some (n + 1) => n + 1

/-- JS truthiness of an optional string: undefined and the empty string are
falsy. -/
def jsTruthyOptStr : Option String → Bool
  | none => false
  | some s => !(s == "")

/-- Model of the JS expression string-or-default (`s || d`): the empty string
is falsy. -/
def jsStrOrDefault (s : String) (d : String) : String :=
  if s = "" then d else s

/-- Model of `Math.max(...)` over a JS array of years; only evaluated on
nonempty lists by the embedded code (Math.max of an empty array would be
-Infinity, which never occurs in the guarded branch). -/
def listMaxInt : List Int → Int
  | [] => 0
  | x :: xs => xs.foldl max x

/-! ## Frontier/depth classifier (src/lib/prompts.ts) -/

/-- Depth levels, the keys of DEPTH_LEVELS in src/lib/prompts.ts. -/
inductive DepthLevel where
  | known
  | investigated
  | debated
  | unknown
  | frontier
deriving DecidableEq, Repr

/-- Research-heat levels, the keys of RESEARCH_HEAT in src/lib/prompts.ts. -/
inductive ResearchHeatLevel where
  | hot
  | warm
  | cold
  | dormant
deriving DecidableEq, Repr

/-- The paper shape consumed by detectFrontierFromPapers:
an array of objects with a year and an optional citationCount. -/
structure FrontierPaper where
  year : Int
  citationCount : Option Nat := none
deriving DecidableEq, Repr

/-- Return shape of detectFrontierFromPapers. -/
structure FrontierResult where
  isFrontier : Bool
  frontierReason : Option String
  depth : DepthLevel
  researchHeat : ResearchHeatLevel
deriving DecidableEq, Repr

/-- Reason string of the zero-papers frontier branch. -/
def frontierReasonNoPapers : String :=
  "No published research specifically addresses this observation."

/-- Reason string of the few-and-stale frontier branch. -/
def frontierReasonFewPapers (n : Nat) : String :=
  "Only " ++ toString n ++ " papers found, none in the last 3 years."

/-- Reason string of the dormant-research frontier branch. -/
def frontierReasonDormant (latestYear : Int) : String :=
  "Research appears dormant — last paper published in " ++ toString latestYear ++ "."

/-- Test used by the classifier for `geminiConfidence !== undefined &&
geminiConfidence < t`. -/
def confLt (conf : Option ℚ) (t : ℚ) : Bool :=
  match conf with
  | some c => decide (c < t)
  | none => false

/-- Test used by the classifier for `geminiConfidence === undefined ||
geminiConfidence >= t`. -/
def confAbsentOrGe (conf : Option ℚ) (t : ℚ) : Bool :=
  match conf with
  | some c => decide (t ≤ c)
  | none => true

/-- The `researchHeat` computation of detectFrontierFromPapers, hoisted out
of the function body: hot on ≥3 papers of the last 2 years, warm on ≥2 of the
last 3, cold on any papers, dormant otherwise. -/
def researchHeatOf (papers : List FrontierPaper) (currentYear : Int) :
    ResearchHeatLevel :=
  let recentPapers := papers.filter fun p => decide (currentYear - 3 ≤ p.year)
  let veryRecentPapers := papers.filter fun p => decide (currentYear - 2 ≤ p.year)
  if 3 ≤ veryRecentPapers.length then .hot
  else if 2 ≤ recentPapers.length then .warm
  else if 0 < papers.length then .cold
  else .dormant

/-- The `depth` computation of the non-frontier branch of
detectFrontierFromPapers, hoisted out of the function body. -/
def depthOf (papers : List FrontierPaper) (geminiConfidence : Option ℚ)
    (currentYear : Int) : DepthLevel :=
  let recentPapers := papers.filter fun p => decide (currentYear - 3 ≤ p.year)
  if papers.length ≤ 5 ∨ confLt geminiConfidence 40 = true then .unknown
  else if 3 ≤ recentPapers.length ∨ confLt geminiConfidence 60 = true then .debated
  else if confLt geminiConfidence 80 = true then .investigated
  else if 10 ≤ papers.length ∧ confAbsentOrGe geminiConfidence 80 = true then .known
  else .investigated

/-- detectFrontierFromPapers from src/lib/prompts.ts.  `currentYear` models
`new Date().getFullYear()`. -/
def detectFrontierFromPapers (papers : List FrontierPaper)
    (geminiConfidence : Option ℚ) (currentYear : Int) : FrontierResult :=
  let recentPapers := papers.filter fun p => decide (currentYear - 3 ≤ p.year)
  let researchHeat := researchHeatOf papers currentYear
  if papers.length = 0 then
    ⟨true, some frontierReasonNoPapers, .frontier, researchHeat⟩
  else if papers.length ≤ 2 ∧ recentPapers.length = 0 then
    ⟨true, some (frontierReasonFewPapers papers.length), .frontier, researchHeat⟩
  else
    let latestYear := listMaxInt (papers.map fun p => p.year)
    if latestYear < currentYear - 5 then
      ⟨true, some (frontierReasonDormant latestYear), .frontier, researchHeat⟩
    else
      ⟨false, none, depthOf papers geminiConfidence currentYear, researchHeat⟩

/-! ## Provider data shapes (src/lib/papers.ts, src/lib/web-search.ts) -/

/-- Author entry of a Semantic Scholar paper record. -/
structure SourceAuthor where
  name : String
deriving DecidableEq, Repr

/-- PaperSearchResult from src/lib/papers.ts. -/
structure PaperSearchResult where
  paperId : String
  title : String
  authors : List SourceAuthor
  year : Int
  citationCount : Nat
  abstract : Option String := none
  url : String
  venue : Option String := none
  isOpenAccess : Option Bool := none
deriving DecidableEq, Repr

/-- WebSearchResult from src/lib/web-search.ts; also the element shape of the
formatted web payload, whose fields coincide. -/
structure WebSearchResult where
  title : String
  url : String
  snippet : String
  source : String
deriving DecidableEq, Repr

/-- Reference/citation stub of a PaperDetails record. -/
structure PaperRef where
  paperId : String
  title : String
deriving DecidableEq, Repr

/-- PaperDetails from src/lib/papers.ts. -/
structure PaperDetails where
  paperId : String
  title : String
  authors : List SourceAuthor
  year : Int
  citationCount : Nat
  abstract : String
  url : String
  venue : Option String := none
  references : Option (List PaperRef) := none
  citations : Option (List PaperRef) := none
  fieldsOfStudy : Option (List String) := none
deriving DecidableEq, Repr

/-! ## Tool calls and results (src/lib/tool-executor.ts) -/

/-- Arguments of a tool call: the loosely-typed `Record<string, unknown>`
coming from the reasoning service, restricted to the keys the code reads.
A key that is absent (or set to undefined) is none. -/
structure Args where
  query : Option String := none
  limit : Option Int := none
  paperId : Option String := none
  summary : Option String := none
  confidence : Option ℚ := none
  key_papers : Option (List String) := none
  frontier_detected : Option Bool := none
deriving DecidableEq, Repr

/-- ToolCall from src/lib/tool-executor.ts. -/
structure ToolCall where
  name : String
  args : Args
deriving DecidableEq, Repr

/-- The runtime shape of one entry of the formatted papers payload built by
formatPapersForAgent.  All fields are optional because the object later flows
through an unchecked cast in accumulateResults that reads keys (`paperId`,
`citationCount`) this object does not carry; reading an absent key yields
none, exactly like reading an absent property yields undefined in JS. -/
structure PaperObj where
  id : Option String := none
  paperId : Option String := none
  title : Option String := none
  authors : Option String := none
  year : Option Int := none
  citations : Option Nat := none
  citationCount : Option Nat := none
  abstract : Option String := none
  url : Option String := none
  venue : Option String := none
deriving DecidableEq, Repr

/-- Reference stub `{title, id}` of the formatted details payload. -/
structure RefObj where
  title : String
  id : String
deriving DecidableEq, Repr

/-- Shape built by formatPaperDetailsForAgent. -/
structure DetailsObj where
  id : String
  title : String
  authors : String
  year : Int
  citations : Nat
  abstract : String
  url : String
  venue : String
  fields : List String
  topReferences : List RefObj
  topCitations : List RefObj
deriving DecidableEq, Repr

/-- The `result` value of a ToolResult: one of the four object shapes the
executor can produce. -/
inductive ToolPayload where
  | papersPayload (count : Nat) (papers : List PaperObj)
  | webPayload (count : Nat) (results : List WebSearchResult)
  | detailsPayload (d : DetailsObj)
  | finishPayload (summary : Option String) (confidence : Option ℚ)
      (keyPapers : List String) (frontierDetected : Bool)
deriving DecidableEq, Repr

/-- ToolResult from src/lib/tool-executor.ts.  Wall-clock execution times are
modelled as 0. -/
structure ToolResult where
  name : String
  result : Option ToolPayload
  error : Option String := none
  executionTime : Nat := 0
deriving DecidableEq, Repr

/-- The evidence providers the executor dispatches to.  A provider call that
throws (network failure, timeout) is modelled as `Except.error` carrying the
error message. -/
structure ProviderEnv where
  searchPapers : String → Int → Except String (List PaperSearchResult)
  searchWeb : String → Int → Except String (List WebSearchResult)
  getPaperDetails : String → Except String (Option PaperDetails)

/-- truncate from src/lib/tool-executor.ts. -/
def truncate (text : String) (maxLength : Nat) : String :=
  if text.length ≤ maxLength then text
  else text.take (maxLength - 3) ++ "..."

/-- The `authors.map(a => a.name).join(', ') || 'Unknown'` expression. -/
def joinAuthors (authors : List SourceAuthor) : String :=
  jsStrOrDefault (String.intercalate ", " (authors.map SourceAuthor.name)) "Unknown"

/-- One entry of the payload of formatPapersForAgent.  Note the dedup key used
later by accumulateResults is `paperId`, a field this object does not set: the
formatter emits the id under the key `id`. -/
def formatPaperForAgent (p : PaperSearchResult) : PaperObj :=
  { id := some p.paperId,
    title := some p.title,
    authors := some (joinAuthors p.authors),
    year := some p.year,
    citations := some p.citationCount,
    abstract := some (match p.abstract with
      | some a => if a = "" then "No abstract available" else truncate a 300
      | none => "No abstract available"),
    url := some p.url,
    venue := some (match p.venue with
      | some v => if v = "" then "Unknown venue" else v
      | none => "Unknown venue") }

/-- formatPapersForAgent from src/lib/tool-executor.ts. -/
def formatPapersForAgent (papers : List PaperSearchResult) : ToolPayload :=
  .papersPayload papers.length (papers.map formatPaperForAgent)

/-- formatWebResultsForAgent from src/lib/tool-executor.ts. -/
def formatWebResultsForAgent (results : List WebSearchResult) : ToolPayload :=
  .webPayload results.length
    (results.map fun r => { r with snippet := truncate r.snippet 200 })

/-- formatPaperDetailsForAgent from src/lib/tool-executor.ts. -/
def formatPaperDetailsForAgent (p : PaperDetails) : ToolPayload :=
  .detailsPayload
    { id := p.paperId,
      title := p.title,
      authors := joinAuthors p.authors,
      year := p.year,
      citations := p.citationCount,
      abstract := jsStrOrDefault p.abstract "No abstract available",
      url := p.url,
      venue := (match p.venue with
        | some v => if v = "" then "Unknown venue" else v
        | none => "Unknown venue"),
      fields := p.fieldsOfStudy.getD [],
      topReferences := ((p.references.getD []).take 5).map fun r => ⟨r.title, r.paperId⟩,
      topCitations := ((p.citations.getD []).take 5).map fun c => ⟨c.title, c.paperId⟩ }

/-- The clamped limit passed to the paper-search provider:
`Math.min(Math.max(call.args.limit || 10, 1), 20)`. -/
def paperSearchLimit (args : Args) : Int :=
  min (max (jsNumOr args.limit 10) 1) 20

/-- The clamped limit passed to the web-search provider:
`Math.min(Math.max(call.args.limit || 5, 1), 10)`. -/
def webSearchLimit (args : Args) : Int :=
  min (max (jsNumOr args.limit 5) 1) 10

/-- executeTool from src/lib/tool-executor.ts.  The surrounding try/catch is
the `Except.error` cases of the provider calls: a thrown provider error is
converted into a ToolResult with an `error` field and never propagates. -/
def executeTool (P : ProviderEnv) (call : ToolCall) : ToolResult :=
  if call.name = "search_academic_papers" then
    if call.args.query.isSome then
      match P.searchPapers (call.args.query.getD "") (paperSearchLimit call.args) with
      | .error e => ⟨call.name, none, some e, 0⟩
      | .ok papers => ⟨call.name, some (formatPapersForAgent papers), none, 0⟩
    else ⟨call.name, none, some "Invalid arguments: query is required", 0⟩
  else if call.name = "search_web" then
    if call.args.query.isSome then
      match P.searchWeb (call.args.query.getD "") (webSearchLimit call.args) with
      | .error e => ⟨call.name, none, some e, 0⟩
      | .ok results => ⟨call.name, some (formatWebResultsForAgent results), none, 0⟩
    else ⟨call.name, none, some "Invalid arguments: query is required", 0⟩
  else if call.name = "get_paper_details" then
    if call.args.paperId.isSome then
      match P.getPaperDetails (call.args.paperId.getD "") with
      | .error e => ⟨call.name, none, some e, 0⟩
      | .ok none => ⟨call.name, none, some "Paper not found", 0⟩
      | .ok (some details) => ⟨call.name, some (formatPaperDetailsForAgent details), none, 0⟩
    else ⟨call.name, none, some "Invalid arguments: paperId is required", 0⟩
  else if call.name = "finish_research" then
    if call.args.summary.isSome ∧ call.args.confidence.isSome then
      ⟨call.name,
        some (.finishPayload call.args.summary call.args.confidence
          (call.args.key_papers.getD []) (call.args.frontier_detected.getD false)),
        none, 0⟩
    else ⟨call.name, none, some "Invalid arguments: summary and confidence are required", 0⟩
  else ⟨call.name, none, some ("Unknown tool: " ++ call.name), 0⟩

/-- executeToolsParallel from src/lib/tool-executor.ts: `Promise.all` over the
per-call executions; the i-th outcome is the outcome of the i-th call by
construction of Promise.all, independently of completion order. -/
def executeToolsParallel (P : ProviderEnv) (calls : List ToolCall) : List ToolResult :=
  calls.map (executeTool P)

/-- Batched worker of executeToolsWithLimit: repeatedly splice off a batch of
`lim` calls and run it.  The fuel argument bounds the number of batches; with
`lim = 0` the JS original would never terminate (splice(0,0) leaves the queue
unchanged), which the model renders as returning once fuel is exhausted. -/
def executeToolsWithLimitGo (P : ProviderEnv) (lim : Nat) :
    Nat → List ToolCall → List ToolResult
  | _, [] => []
  | 0, _ => []
  | fuel + 1, q =>
      (q.take lim).map (executeTool P) ++ executeToolsWithLimitGo P lim fuel (q.drop lim)

/-- executeToolsWithLimit from src/lib/tool-executor.ts.  A fuel of
`calls.length` suffices for every concurrency limit ≥ 1. -/
def executeToolsWithLimit (P : ProviderEnv) (calls : List ToolCall) (lim : Nat) :
    List ToolResult :=
  executeToolsWithLimitGo P lim calls.length calls

/-! ## Research context and result accumulation (src/lib/research-agent.ts) -/

/-- One entry of the tool-call audit log. -/
structure IterationLog where
  iteration : Nat
  calls : List String
  results : List String
deriving DecidableEq, Repr

/-- ResearchContext from src/lib/research-agent.ts.  `originalAnalysis` is an
opaque `unknown` value; it is modelled by its JSON serialization (none when
absent).  `totalTime` is the final wall-clock reading. -/
structure ResearchContext where
  topic : String
  branchType : String
  originalAnalysis : Option String
  collectedPapers : List PaperObj
  collectedWebResults : List WebSearchResult
  iterations : Nat
  toolCalls : List IterationLog
  researchSummary : Option String := none
  researchConfidence : Option ℚ := none
  frontierDetected : Option Bool := none
  totalTime : Nat := 0
deriving DecidableEq, Repr

/-- Dedup insertion used by accumulateResults for papers:
`if (!collectedPapers.some(p => p.paperId === paper.paperId)) push(paper)`.
The key comparison is on the optional `paperId` field; two absent keys compare
equal, exactly as undefined === undefined in JS. -/
def insertPaperDedup (papers : List PaperObj) (p : PaperObj) : List PaperObj :=
  if papers.any fun q => decide (q.paperId = p.paperId) then papers
  else papers ++ [p]

/-- Dedup insertion used by accumulateResults for web results, keyed on url. -/
def insertWebDedup (results : List WebSearchResult) (r : WebSearchResult) :
    List WebSearchResult :=
  if results.any fun q => decide (q.url = r.url) then results
  else results ++ [r]

/-- Processing of one ToolResult inside accumulateResults: skip on a truthy
error; merge a papers payload of a search_academic_papers result and a
results payload of a search_web result, with dedup insertion. -/
def accumulateOne (ctx : ResearchContext) (r : ToolResult) : ResearchContext :=
  if jsTruthyOptStr r.error then ctx
  else
    let ctx1 :=
      if r.name = "search_academic_papers" then
        match r.result with
        | some (.papersPayload _ ps) =>
            { ctx with collectedPapers := ps.foldl insertPaperDedup ctx.collectedPapers }
        | _ => ctx
      else ctx
    if r.name = "search_web" then
      match r.result with
      | some (.webPayload _ ws) =>
          { ctx1 with collectedWebResults := ws.foldl insertWebDedup ctx1.collectedWebResults }
      | _ => ctx1
    else ctx1

/-- accumulateResults from src/lib/research-agent.ts. -/
def accumulateResults (ctx : ResearchContext) (results : List ToolResult) :
    ResearchContext :=
  results.foldl accumulateOne ctx

/-- The papers a batch of tool results offers for insertion: the entries of
every papers payload of a non-error search_academic_papers result, in order. -/
def qualifyingPapers (r : ToolResult) : List PaperObj :=
  if jsTruthyOptStr r.error then []
  else if r.name = "search_academic_papers" then
    match r.result with
    | some (.papersPayload _ ps) => ps
    | _ => []
  else []

/-- The web results a batch of tool results offers for insertion. -/
def qualifyingWebResults (r : ToolResult) : List WebSearchResult :=
  if jsTruthyOptStr r.error then []
  else if r.name = "search_web" then
    match r.result with
    | some (.webPayload _ ws) => ws
    | _ => []
  else []

/-- All papers offered by a list of tool results. -/
def offeredPapers : List ToolResult → List PaperObj
  | [] => []
  | r :: rs => qualifyingPapers r ++ offeredPapers rs

/-- All web results offered by a list of tool results. -/
def offeredWebResults : List ToolResult → List WebSearchResult
  | [] => []
  | r :: rs => qualifyingWebResults r ++ offeredWebResults rs

/-! ## Conversation model (the Gemini message history) -/

/-- Body of a functionResponse part: either `{error: message}` or the raw
tool payload. -/
inductive FunctionResponseBody where
  | errorBody (msg : String)
  | resultBody (payload : Option ToolPayload)
deriving DecidableEq, Repr

/-- One content part of a Gemini message: text, a functionCall emitted by the
model (whose name and args may be absent), or a functionResponse sent back. -/
inductive Part where
  | text (s : String)
  | functionCall (name : Option String) (args : Option Args)
  | functionResponse (name : String) (body : FunctionResponseBody)
deriving DecidableEq, Repr

/-- One message of the running conversation. -/
structure Message where
  role : String
  parts : List Part
deriving DecidableEq, Repr

/-- extractToolCalls from src/lib/research-agent.ts:
`part.functionCall.name || ''` and `part.functionCall.args || {}`. -/
def extractToolCalls (parts : List Part) : List ToolCall :=
  parts.filterMap fun p =>
    match p with
    | .functionCall n a => some ⟨n.getD "", a.getD {}⟩
    | _ => none

/-- The parts with truthy text (`parts.filter(p => p.text)`). -/
def truthyTextParts (parts : List Part) : List Part :=
  parts.filter fun p =>
    match p with
    | .text s => !(s == "")
    | _ => false

/-- The functionResponse part built from one ToolResult:
`{name, response: r.error ? {error: r.error} : r.result}`. -/
def toFunctionResponsePart (r : ToolResult) : Part :=
  if jsTruthyOptStr r.error then .functionResponse r.name (.errorBody (r.error.getD ""))
  else .functionResponse r.name (.resultBody r.result)

/-! ## Log-string construction -/

/-- Canonical serialization standing in for `JSON.stringify(call.args)`: keys
in a fixed order, absent keys skipped.  Only its equality behaviour matters to
the theorems below. -/
def stringifyArgs (a : Args) : String :=
  "\x7b" ++ String.intercalate ","
    (List.filterMap id
      [ a.query.map fun v => "\"query\":\"" ++ v ++ "\"",
        a.limit.map fun v => "\"limit\":" ++ toString v,
        a.paperId.map fun v => "\"paperId\":\"" ++ v ++ "\"",
        a.summary.map fun v => "\"summary\":\"" ++ v ++ "\"",
        a.confidence.map fun v => "\"confidence\":" ++ toString v,
        a.key_papers.map fun v =>
          "\"key_papers\":[" ++ String.intercalate "," (v.map fun s => "\"" ++ s ++ "\"") ++ "]",
        a.frontier_detected.map fun v => "\"frontier_detected\":" ++ toString v ])
    ++ "\x7d"

/-- One entry of the `calls` log:
`` `${c.name}(${JSON.stringify(c.args).slice(0, 100)})` ``. -/
def logCallStr (c : ToolCall) : String :=
  c.name ++ "(" ++ (stringifyArgs c.args).take 100 ++ ")"

/-- getResultSummary from src/lib/research-agent.ts.  A read of a field the
payload does not carry yields undefined, rendered through the template
literals as "undefined" or defaulted by `|| 0`. -/
def getResultSummary (r : ToolResult) : String :=
  if jsTruthyOptStr r.error then "error: " ++ r.error.getD ""
  else if r.name = "search_academic_papers" then
    (match r.result with
      | some (.papersPayload c _) => toString c
      | _ => "0") ++ " papers"
  else if r.name = "search_web" then
    (match r.result with
      | some (.webPayload c _) => toString c
      | _ => "0") ++ " results"
  else if r.name = "get_paper_details" then
    "details for \"" ++
      (match r.result with
        | some (.detailsPayload d) => d.title.take 30
        | _ => "undefined") ++ "...\""
  else "ok"

/-- One entry of the `results` log:
`` r.error || `${r.name}: ${getResultSummary(r)}` ``. -/
def logResultStr (r : ToolResult) : String :=
  if jsTruthyOptStr r.error then r.error.getD ""
  else r.name ++ ": " ++ getResultSummary r

/-- Rendering of the optional confidence inside the finish_research log entry
(`${args.confidence}`; undefined renders as "undefined"). -/
def confidenceLogStr (c : Option ℚ) : String :=
  match c with
  | some q => toString q
  | none => "undefined"

/-- The finish_research log entry. -/
def finishLogStr (c : Option ℚ) : String :=
  "finish_research(confidence: " ++ confidenceLogStr c ++ ")"

/-! ## System prompt (src/lib/research-agent.ts) -/

/-- getBranchFocus from src/lib/research-agent.ts. -/
def getBranchFocus (branchType : String) : String :=
  if branchType = "science" then
    "Finding established scientific knowledge and peer-reviewed research"
  else if branchType = "unknown" then
    "Exploring unknowns, open questions, and research frontiers"
  else if branchType = "experiment" then
    "Finding experiments, methods, and hands-on explorations"
  else "Comprehensive exploration of all aspects"

/-- buildAgentSystemPrompt from src/lib/research-agent.ts.  The original
analysis is spliced in through its (already truncated) JSON serialization. -/
def buildAgentSystemPrompt (topic branchType : String)
    (originalAnalysis : Option String) : String :=
  let branchFocus := getBranchFocus branchType
  let analysisSection :=
    match originalAnalysis with
    | some a =>
        if a = "" then ""
        else "CONTEXT FROM INITIAL ANALYSIS:\n" ++ a.take 500
    | none => ""
  "You are a research assistant helping a scientist explore \"" ++ topic ++ "\".\n" ++
  "Focus: " ++ branchFocus ++ "\n\n" ++
  "YOUR ROLE: You're like a helpful librarian — find papers, summarize what you found, be honest about gaps.\n\n" ++
  "TOOLS:\n" ++
  "- search_academic_papers: Search Semantic Scholar for peer-reviewed research\n" ++
  "- search_web: Search the web for context, news, Wikipedia explanations\n" ++
  "- get_paper_details: Get more details on a specific paper (use sparingly)\n" ++
  "- finish_research: Call when you have good coverage OR have tried enough searches\n\n" ++
  "SEARCH STRATEGY:\n" ++
  "1. Start with specific academic terms for the topic\n" ++
  "2. If few results, try synonyms, broader terms, or different angles\n" ++
  "3. Use web search for context papers might miss (Wikipedia, news, explainers)\n" ++
  "4. Aim for 5-10 quality papers, but be honest if you find fewer\n" ++
  "5. Call finish_research when you've done thorough searching\n\n" ++
  "HONESTY IS KEY:\n" ++
  "- If you find lots of papers: great! Summarize what they cover\n" ++
  "- If you find few papers: say so — this might be a research frontier\n" ++
  "- If searches fail: note that searches returned limited results\n" ++
  "- Never pretend to have found more than you did\n\n" ++
  analysisSection ++ "\n\n" ++
  "Begin searching for papers on \"" ++ topic ++ "\"."

/-- The wrap-up reminder pushed by the non-streaming loop once at least 5
papers are collected. -/
def solidResearchNudge : Message :=
  ⟨"user", [.text "[You have gathered solid research. Consider calling finish_research if you feel informed, or do one more targeted search if needed.]"]⟩

/-- The wrap-up reminder pushed by the streaming loop once at least 8 papers
are collected. -/
def excellentResearchNudge : Message :=
  ⟨"user", [.text "[You have gathered excellent research. Consider calling finish_research if you feel well-informed about the topic.]"]⟩

/-! ## The agent loop (src/lib/research-agent.ts) -/

/-- Iteration and duration caps from src/lib/research-agent.ts. -/
def MAX_ITERATIONS : Nat := 10

/-- Wall-clock budget of the non-streaming loop, in milliseconds. -/
def MAX_DURATION_MS : Nat := 40000

/-- AgentConfig from src/lib/research-agent.ts. -/
structure AgentConfig where
  maxIterations : Option Nat := none
  minPapers : Option Nat := none
  minConfidence : Option ℚ := none

/-- The effective iteration cap: `config.maxIterations || MAX_ITERATIONS`. -/
def effectiveMaxIterations (config : AgentConfig) : Nat :=
  jsNatOr config.maxIterations MAX_ITERATIONS

/-- The external world of one agent run: the Gemini call (a function of the
running conversation, whose thrown errors are `Except.error`), the evidence
providers, and the wall-clock readings.  `elapsedAt k` is the elapsed time
observed at the top of the loop pass entered with `iterations = k`;
`finalElapsed` is the reading taken after the loop. -/
structure AgentEnv where
  apiKeyPresent : Bool := true
  providers : ProviderEnv
  respond : List Message → Except String (List Part)
  elapsedAt : Nat → Nat := fun _ => 0
  finalElapsed : Nat := 0

/-- Mutable state of one loop execution, plus an instrumentation counter
`reasonCalls` that increments exactly where `ai.models.generateContent` is
invoked (once per loop pass). -/
structure LoopState where
  ctx : ResearchContext
  messages : List Message
  isComplete : Bool := false
  broke : Bool := false
  reasonCalls : Nat := 0
deriving DecidableEq

/-- One pass of the body of the non-streaming while loop of runResearchAgent,
entered after the guards have passed. -/
def agentStep (env : AgentEnv) (s : LoopState) : LoopState :=
  let ctx0 := { s.ctx with iterations := s.ctx.iterations + 1 }
  match env.respond s.messages with
  | .error msg =>
      let ctx1 := { ctx0 with
        toolCalls := ctx0.toolCalls ++ [⟨ctx0.iterations, ["ERROR"], [msg]⟩] }
      { s with
        ctx := ctx1,
        isComplete :=
          if 2 ≤ ctx1.iterations ∧ 0 < ctx1.collectedPapers.length then true
          else s.isComplete,
        reasonCalls := s.reasonCalls + 1 }
  | .ok parts =>
      let toolCalls := extractToolCalls parts
      if toolCalls.length = 0 then
        { s with ctx := ctx0, broke := true, reasonCalls := s.reasonCalls + 1 }
      else
        match toolCalls.find? fun c => decide (c.name = "finish_research") with
        | some finishCall =>
            let ctx1 := { ctx0 with
              researchSummary := finishCall.args.summary,
              researchConfidence := finishCall.args.confidence,
              frontierDetected := finishCall.args.frontier_detected,
              toolCalls := ctx0.toolCalls ++
                [⟨ctx0.iterations, [finishLogStr finishCall.args.confidence],
                  ["Research complete"]⟩] }
            { s with
              ctx := ctx1
              isComplete := true
              broke := true
              reasonCalls := s.reasonCalls + 1 }
        | none =>
            let results := executeToolsParallel env.providers toolCalls
            let ctx1 := accumulateResults ctx0 results
            let ctx2 := { ctx1 with
              toolCalls := ctx1.toolCalls ++
                [⟨ctx1.iterations, toolCalls.map logCallStr, results.map logResultStr⟩] }
            let msgs1 := s.messages ++
              [⟨"model", parts⟩, ⟨"user", results.map toFunctionResponsePart⟩]
            let msgs2 :=
              if 5 ≤ ctx2.collectedPapers.length then msgs1 ++ [solidResearchNudge]
              else msgs1
            { s with
              ctx := ctx2
              messages := msgs2
              reasonCalls := s.reasonCalls + 1 }

/-- The non-streaming while loop:
`while (!isComplete && iterations < maxIterations)`, with the wall-clock break
at the top of the body and `broke` recording an executed `break`.  The fuel
only bounds recursion; a fuel of `maxIterations` is always sufficient because
every pass increments `iterations`. -/
def runAgentLoop (env : AgentEnv) (maxIterations : Nat) :
    Nat → LoopState → LoopState
  | 0, s => s
  | fuel + 1, s =>
      if s.isComplete ∨ s.broke ∨ maxIterations ≤ s.ctx.iterations then s
      else if MAX_DURATION_MS < env.elapsedAt s.ctx.iterations then s
      else runAgentLoop env maxIterations fuel (agentStep env s)

/-- The fresh context and conversation of a run. -/
def initialLoopState (topic branchType : String)
    (originalAnalysis : Option String) : LoopState :=
  { ctx :=
      { topic := topic,
        branchType := branchType,
        originalAnalysis := originalAnalysis,
        collectedPapers := [],
        collectedWebResults := [],
        iterations := 0,
        toolCalls := [] },
    messages := [⟨"user", [.text (buildAgentSystemPrompt topic branchType originalAnalysis)]⟩] }

/-- The loop portion of runResearchAgent: everything between the context
creation and the fallback. -/
def runResearchAgentAux (env : AgentEnv) (topic branchType : String)
    (originalAnalysis : Option String) (config : AgentConfig) : LoopState :=
  runAgentLoop env (effectiveMaxIterations config) (effectiveMaxIterations config)
    (initialLoopState topic branchType originalAnalysis)

/-- The fallback terminal summary, applied when the loop ended without
`isComplete`:  `confidence = Math.min(0.3 + papers.length * 0.05, 0.8)`,
`frontierDetected = papers.length < 5`.  Shared verbatim by both variants. -/
def applyFallback (s : LoopState) : ResearchContext :=
  if s.isComplete then s.ctx
  else
    { s.ctx with
      researchSummary := some "Research gathered through iterative search",
      researchConfidence :=
        some (min ((3 : ℚ)/10 + (s.ctx.collectedPapers.length : ℚ) * ((5 : ℚ)/100)) ((8 : ℚ)/10)),
      frontierDetected := some (decide (s.ctx.collectedPapers.length < 5)) }

/-- runResearchAgent from src/lib/research-agent.ts.  Returns
`Except.error` when the GEMINI_API_KEY configuration is missing (the thrown
configuration error), otherwise the final ResearchContext. -/
def runResearchAgent (env : AgentEnv) (topic branchType : String)
    (originalAnalysis : Option String) (config : AgentConfig) :
    Except String ResearchContext :=
  if env.apiKeyPresent then
    let s := runResearchAgentAux env topic branchType originalAnalysis config
    .ok { applyFallback s with totalTime := env.finalElapsed }
  else .error "GEMINI_API_KEY is not configured"

/-! ## Progress events and the streaming loop -/

/-- Stage labels of a ProgressEvent. -/
inductive Stage where
  | starting
  | thinking
  | searching
  | reading
  | analyzing
  | generating
  | complete
deriving DecidableEq, Repr

/-- ProgressEvent from src/lib/research-agent.ts. -/
structure ProgressEvent where
  stage : Stage
  message : String
  iteration : Option Nat := none
  toolName : Option String := none
  toolArgs : Option Args := none
  papersFound : Option Nat := none
  webResultsFound : Option Nat := none
  detail : Option String := none
deriving DecidableEq

/-- getStageForTool from src/lib/research-agent.ts. -/
def getStageForTool (toolName : String) : Stage :=
  if toolName = "search_academic_papers" then .searching
  else if toolName = "search_web" then .searching
  else if toolName = "get_paper_details" then .reading
  else .analyzing

/-- Rendering of `${args.query}` (undefined renders as "undefined"). -/
def argQueryStr (args : Args) : String :=
  match args.query with
  | some q => q
  | none => "undefined"

/-- getMessageForTool from src/lib/research-agent.ts. -/
def getMessageForTool (toolName : String) (args : Args) : String :=
  if toolName = "search_academic_papers" then
    "Searching academic papers for \"" ++ argQueryStr args ++ "\"..."
  else if toolName = "search_web" then
    "Searching the web for \"" ++ argQueryStr args ++ "\"..."
  else if toolName = "get_paper_details" then "Reading paper details..."
  else if toolName = "finish_research" then "Finalizing research..."
  else "Running " ++ toolName ++ "..."

/-- State of the streaming loop: the same core state, plus the trace of
events delivered to the onProgress callback. -/
structure StreamState where
  core : LoopState
  events : List ProgressEvent
deriving DecidableEq

/-- The per-tool progress events emitted before executing a batch. -/
def toolProgressEvents (iteration papersFound webResultsFound : Nat)
    (toolCalls : List ToolCall) : List ProgressEvent :=
  toolCalls.map fun call =>
    { stage := getStageForTool call.name,
      message := getMessageForTool call.name call.args,
      iteration := some iteration,
      toolName := some call.name,
      toolArgs := some call.args,
      papersFound := some papersFound,
      webResultsFound := some webResultsFound }

/-- The `analysisMessage` computed after a batch, from the counts of searches
just issued and the updated context. -/
def analysisMessageFor (newPapersThisIteration newWebThisIteration : Nat)
    (ctx : ResearchContext) : String :=
  if 0 < newPapersThisIteration ∧ 0 < newWebThisIteration then
    "Found papers and web results (" ++ toString ctx.collectedPapers.length ++ " papers total)"
  else if 0 < newPapersThisIteration then
    "Found academic papers (" ++ toString ctx.collectedPapers.length ++ " total)"
  else if 0 < newWebThisIteration then
    if 0 < ctx.collectedWebResults.length then
      "Found web context (" ++ toString ctx.collectedWebResults.length ++ " sources)"
    else "Web search complete, checking for more sources..."
  else "Processing results..."

/-- The detail of the zero-tool-calls analyzing event:
`textParts[0].text?.slice(0, 100)`. -/
def firstTextDetail (parts : List Part) : Option String :=
  match truthyTextParts parts with
  | .text s :: _ => some (s.take 100)
  | _ => none

/-- One pass of the body of the while loop of runResearchAgentWithProgress.
Identical to agentStep except for the emitted events, the absence of the
wall-clock guard (handled by the driver), and the wrap-up reminder, which here
fires at 8 collected papers with a different text. -/
def agentStepW (env : AgentEnv) (t : StreamState) : StreamState :=
  let s := t.core
  let ctx0 := { s.ctx with iterations := s.ctx.iterations + 1 }
  let events0 := t.events ++
    [{ stage := .thinking,
       message := "Iteration " ++ toString ctx0.iterations ++ ": Agent is thinking...",
       iteration := some ctx0.iterations,
       papersFound := some s.ctx.collectedPapers.length,
       webResultsFound := some s.ctx.collectedWebResults.length }]
  match env.respond s.messages with
  | .error msg =>
      let ctx1 := { ctx0 with
        toolCalls := ctx0.toolCalls ++ [⟨ctx0.iterations, ["ERROR"], [msg]⟩] }
      { core := { s with
          ctx := ctx1,
          isComplete :=
            if 2 ≤ ctx1.iterations ∧ 0 < ctx1.collectedPapers.length then true
            else s.isComplete,
          reasonCalls := s.reasonCalls + 1 },
        events := events0 ++
          [{ stage := .analyzing,
             message := "Iteration " ++ toString ctx0.iterations ++ " had an issue, continuing...",
             iteration := some ctx0.iterations,
             detail := some msg }] }
  | .ok parts =>
      let toolCalls := extractToolCalls parts
      if toolCalls.length = 0 then
        let events1 :=
          if 0 < (truthyTextParts parts).length then
            events0 ++
              [{ stage := .analyzing,
                 message := "Agent completed research",
                 iteration := some ctx0.iterations,
                 detail := firstTextDetail parts }]
          else events0
        { core := { s with ctx := ctx0, broke := true, reasonCalls := s.reasonCalls + 1 },
          events := events1 }
      else
        match toolCalls.find? fun c => decide (c.name = "finish_research") with
        | some finishCall =>
            let ctx1 := { ctx0 with
              researchSummary := finishCall.args.summary,
              researchConfidence := finishCall.args.confidence,
              frontierDetected := finishCall.args.frontier_detected,
              toolCalls := ctx0.toolCalls ++
                [⟨ctx0.iterations, [finishLogStr finishCall.args.confidence],
                  ["Research complete"]⟩] }
            { core := { s with
                ctx := ctx1
                isComplete := true
                broke := true
                reasonCalls := s.reasonCalls + 1 },
              events := events0 ++
                [{ stage := .complete,
                   message := "Research complete!",
                   iteration := some ctx0.iterations,
                   papersFound := some ctx0.collectedPapers.length,
                   webResultsFound := some ctx0.collectedWebResults.length,
                   detail := finishCall.args.summary.map fun str => str.take 100 }] }
        | none =>
            let events1 := events0 ++
              toolProgressEvents ctx0.iterations ctx0.collectedPapers.length
                ctx0.collectedWebResults.length toolCalls
            let results := executeToolsParallel env.providers toolCalls
            let ctx1 := accumulateResults ctx0 results
            let newPapersThisIteration :=
              (toolCalls.filter fun c => decide (c.name = "search_academic_papers")).length
            let newWebThisIteration :=
              (toolCalls.filter fun c => decide (c.name = "search_web")).length
            let events2 := events1 ++
              [{ stage := .analyzing,
                 message := analysisMessageFor newPapersThisIteration newWebThisIteration ctx1,
                 iteration := some ctx1.iterations,
                 papersFound := some ctx1.collectedPapers.length,
                 webResultsFound := some ctx1.collectedWebResults.length }]
            let ctx2 := { ctx1 with
              toolCalls := ctx1.toolCalls ++
                [⟨ctx1.iterations, toolCalls.map logCallStr, results.map logResultStr⟩] }
            let msgs1 := s.messages ++
              [⟨"model", parts⟩, ⟨"user", results.map toFunctionResponsePart⟩]
            let msgs2 :=
              if 8 ≤ ctx2.collectedPapers.length then msgs1 ++ [excellentResearchNudge]
              else msgs1
            { core := { s with
                ctx := ctx2
                messages := msgs2
                reasonCalls := s.reasonCalls + 1 },
              events := events2 }

/-- The streaming while loop: same guard, no wall-clock break. -/
def runAgentLoopW (env : AgentEnv) (maxIterations : Nat) :
    Nat → StreamState → StreamState
  | 0, t => t
  | fuel + 1, t =>
      if t.core.isComplete ∨ t.core.broke ∨ maxIterations ≤ t.core.ctx.iterations then t
      else runAgentLoopW env maxIterations fuel (agentStepW env t)

/-- The loop portion of runResearchAgentWithProgress. -/
def runResearchAgentWithProgressAux (env : AgentEnv) (topic branchType : String)
    (originalAnalysis : Option String) (config : AgentConfig) : StreamState :=
  runAgentLoopW env (effectiveMaxIterations config) (effectiveMaxIterations config)
    ⟨initialLoopState topic branchType originalAnalysis, []⟩

/-- The terminal complete event emitted when the streaming loop ends without
an explicit finish. -/
def maxIterationsCompleteEvent (s : LoopState) : ProgressEvent :=
  { stage := .complete,
    message := "Research complete (max iterations reached)",
    iteration := some s.ctx.iterations,
    papersFound := some s.ctx.collectedPapers.length,
    webResultsFound := some s.ctx.collectedWebResults.length }

/-- runResearchAgentWithProgress from src/lib/research-agent.ts.  The second
component of the result is the full trace of events delivered to the
onProgress callback. -/
def runResearchAgentWithProgress (env : AgentEnv) (topic branchType : String)
    (originalAnalysis : Option String) (config : AgentConfig) :
    Except String (ResearchContext × List ProgressEvent) :=
  if env.apiKeyPresent then
    let t := runResearchAgentWithProgressAux env topic branchType originalAnalysis config
    let events :=
      if t.core.isComplete then t.events
      else t.events ++ [maxIterationsCompleteEvent t.core]
    .ok ({ applyFallback t.core with totalTime := env.finalElapsed }, events)
  else .error "GEMINI_API_KEY is not configured"

/-! ## Spec-side predicates and concrete instances used by the theorems -/

/-- Characterization of the failure cases of executeTool: unknown tool name,
missing required arguments, a provider call that throws, or an unknown
paperId.  Used to state that executeTool reports exactly these through its
`error` field. -/
def toolCallFails (P : ProviderEnv) (call : ToolCall) : Bool :=
  if call.name = "search_academic_papers" then
    !call.args.query.isSome ||
      (match P.searchPapers (call.args.query.getD "") (paperSearchLimit call.args) with
        | .error _ => true
        | .ok _ => false)
  else if call.name = "search_web" then
    !call.args.query.isSome ||
      (match P.searchWeb (call.args.query.getD "") (webSearchLimit call.args) with
        | .error _ => true
        | .ok _ => false)
  else if call.name = "get_paper_details" then
    !call.args.paperId.isSome ||
      (match P.getPaperDetails (call.args.paperId.getD "") with
        | .error _ => true
        | .ok none => true
        | .ok (some _) => false)
  else if call.name = "finish_research" then
    !(call.args.summary.isSome && call.args.confidence.isSome)
  else true

/-- The degenerate shape of the collected-papers list in every reachable loop
state: every stored entry lacks the `paperId` dedup key (the formatter emits
`id` instead), so at most one entry is ever stored. -/
def papersDegenerate (l : List PaperObj) : Prop :=
  l.length ≤ 1 ∧ ∀ p ∈ l, p.paperId = none

/-- Providers that always succeed with empty result lists. -/
def trivialProviders : ProviderEnv :=
  { searchPapers := fun _ _ => .ok [],
    searchWeb := fun _ _ => .ok [],
    getPaperDetails := fun _ => .ok none }

/-- A concrete paper record used by the concrete runs below. -/
def paperP1 : PaperSearchResult :=
  { paperId := "p1", title := "T", authors := [], year := 2020,
    citationCount := 3, url := "u" }

/-- Environment whose reasoning service requests one paper search on the
first pass and then throws: the run terminates through the error-escalation
path (2 iterations elapsed, one paper collected). -/
def envEscalation : AgentEnv :=
  { providers :=
      { searchPapers := fun _ _ => .ok [paperP1],
        searchWeb := fun _ _ => .ok [],
        getPaperDetails := fun _ => .ok none },
    respond := fun msgs =>
      if msgs.length = 1 then
        .ok [.functionCall (some "search_academic_papers") (some { query := some "q" })]
      else .error "boom" }

/-- Environment whose reasoning service answers with plain text and never
emits a tool call. -/
def envNoTools : AgentEnv :=
  { providers := trivialProviders,
    respond := fun _ => .ok [.text "done"] }

/-- Environment whose reasoning service immediately finishes with a complete
finish_research signal. -/
def envFinishFirst : AgentEnv :=
  { providers := trivialProviders,
    respond := fun _ =>
      .ok [.functionCall (some "finish_research")
        (some { summary := some "s", confidence := some ((9 : ℚ)/10),
                frontier_detected := some true })] }

/-- The 12-paper scenario-B input: 4 papers within the last 2 years of 2026,
8 older ones. -/
def papersScenarioB : List FrontierPaper :=
  [⟨2025, none⟩, ⟨2025, none⟩, ⟨2024, none⟩, ⟨2024, none⟩,
   ⟨2015, none⟩, ⟨2015, none⟩, ⟨2014, none⟩, ⟨2013, none⟩,
   ⟨2012, none⟩, ⟨2011, none⟩, ⟨2010, none⟩, ⟨2009, none⟩]

/-- An unknown-tool call used to witness the executor error handling. -/
def bogusCall : ToolCall := ⟨"bogus_tool", {}⟩

/-- Three concrete calls used to witness order preservation. -/
def threeCalls : List ToolCall :=
  [⟨"search_academic_papers", { query := some "a" }⟩,
   ⟨"bogus_tool", {}⟩,
   ⟨"search_web", { query := some "b" }⟩]

/-- Two tool results offering overlapping paper keys, used to witness the
dedup invariant. -/
def dupResults : List ToolResult :=
  [⟨"search_academic_papers",
    some (.papersPayload 2 [{ paperId := some "x" }, { paperId := some "y" }]), none, 0⟩,
   ⟨"search_academic_papers",
    some (.papersPayload 2 [{ paperId := some "x" }, { paperId := some "z" }]), none, 0⟩,
   ⟨"search_web",
    some (.webPayload 1 [⟨"t", "url1", "sn", "src"⟩]), none, 0⟩,
   ⟨"search_web",
    some (.webPayload 2 [⟨"t", "url1", "sn", "src"⟩, ⟨"t2", "url2", "sn", "src"⟩]), none, 0⟩]

/-- A fresh empty research context used by concrete accumulation runs. -/
def emptyCtx : ResearchContext :=
  { topic := "t", branchType := "b", originalAnalysis := none,
    collectedPapers := [], collectedWebResults := [], iterations := 0,
    toolCalls := [] }

/-! ## Helper lemmas -/

lemma string_ne_of_head (a b : String) (h : a.data.head? ≠ b.data.head?) : a ≠ b :=
  fun e => h (by rw [e])

lemma head_frontierReasonNoPapers : frontierReasonNoPapers.data.head? = some 'N' := by
  decide

lemma head_frontierReasonFewPapers (n : Nat) :
    (frontierReasonFewPapers n).data.head? = some 'O' := by
  unfold frontierReasonFewPapers
  rw [String.data_append, List.head?_append]
  rfl

lemma head_frontierReasonDormant (y : Int) :
    (frontierReasonDormant y).data.head? = some 'R' := by
  unfold frontierReasonDormant
  rw [String.data_append, List.head?_append]
  rfl

lemma frontierReasons_pairwise_distinct (n : Nat) (y : Int) :
    frontierReasonNoPapers ≠ frontierReasonFewPapers n
    ∧ frontierReasonNoPapers ≠ frontierReasonDormant y
    ∧ frontierReasonFewPapers n ≠ frontierReasonDormant y := by
  refine ⟨string_ne_of_head _ _ ?_, string_ne_of_head _ _ ?_, string_ne_of_head _ _ ?_⟩
  · rw [head_frontierReasonNoPapers, head_frontierReasonFewPapers]; simp
  · rw [head_frontierReasonNoPapers, head_frontierReasonDormant]; simp
  · rw [head_frontierReasonFewPapers, head_frontierReasonDormant]; simp

lemma le_foldl_max (ys : List Int) (a : Int) : a ≤ ys.foldl max a := by
  induction ys generalizing a with
  | nil => exact le_refl a
  | cons y ys ih => exact le_trans (le_max_left a y) (ih (max a y))

lemma mem_le_foldl_max {x : Int} (ys : List Int) (a : Int) (hx : x ∈ ys) :
    x ≤ ys.foldl max a := by
  induction ys generalizing a with
  | nil => cases hx
  | cons y ys ih =>
      rcases List.mem_cons.mp hx with rfl | h
      · exact le_trans (le_max_right a x) (le_foldl_max ys (max a x))
      · exact ih (max a y) h

lemma le_listMaxInt {l : List Int} {x : Int} (hx : x ∈ l) : x ≤ listMaxInt l := by
  cases l with
  | nil => cases hx
  | cons y ys =>
      rcases List.mem_cons.mp hx with rfl | h
      · exact le_foldl_max ys x
      · exact mem_le_foldl_max ys y h

lemma detect_eq_of_empty (papers : List FrontierPaper) (conf : Option ℚ) (y : Int)
    (h : papers.length = 0) :
    detectFrontierFromPapers papers conf y =
      ⟨true, some frontierReasonNoPapers, .frontier, researchHeatOf papers y⟩ := by
  simp only [detectFrontierFromPapers]
  rw [if_pos h]

lemma detect_eq_of_few (papers : List FrontierPaper) (conf : Option ℚ) (y : Int)
    (h1 : ¬ papers.length = 0)
    (h2 : papers.length ≤ 2 ∧ (papers.filter fun p => decide (y - 3 ≤ p.year)).length = 0) :
    detectFrontierFromPapers papers conf y =
      ⟨true, some (frontierReasonFewPapers papers.length), .frontier,
        researchHeatOf papers y⟩ := by
  simp only [detectFrontierFromPapers]
  rw [if_neg h1, if_pos h2]

lemma detect_eq_of_stale (papers : List FrontierPaper) (conf : Option ℚ) (y : Int)
    (h1 : ¬ papers.length = 0)
    (h2 : ¬ (papers.length ≤ 2 ∧ (papers.filter fun p => decide (y - 3 ≤ p.year)).length = 0))
    (h3 : listMaxInt (papers.map fun p => p.year) < y - 5) :
    detectFrontierFromPapers papers conf y =
      ⟨true, some (frontierReasonDormant (listMaxInt (papers.map fun p => p.year))),
        .frontier, researchHeatOf papers y⟩ := by
  simp only [detectFrontierFromPapers]
  rw [if_neg h1, if_neg h2, if_pos h3]

lemma detect_eq_of_active (papers : List FrontierPaper) (conf : Option ℚ) (y : Int)
    (h1 : ¬ papers.length = 0)
    (h2 : ¬ (papers.length ≤ 2 ∧ (papers.filter fun p => decide (y - 3 ≤ p.year)).length = 0))
    (h3 : ¬ listMaxInt (papers.map fun p => p.year) < y - 5) :
    detectFrontierFromPapers papers conf y =
      ⟨false, none, depthOf papers conf y, researchHeatOf papers y⟩ := by
  simp only [detectFrontierFromPapers]
  rw [if_neg h1, if_neg h2, if_neg h3]

lemma veryRecent_le_recent (papers : List FrontierPaper) (y : Int) :
    (papers.filter fun p => decide (y - 2 ≤ p.year)).length ≤
      (papers.filter fun p => decide (y - 3 ≤ p.year)).length := by
  refine (List.monotone_filter_right papers ?_).length_le
  intro a ha
  simp only [decide_eq_true_eq] at ha ⊢
  omega

/-! ## Claim C2 -/

/-- Claim C2, corrected.  For every list of 12 papers of which 4 have
publication years within the last 2 years of the current year,
detectFrontierFromPapers returns researchHeat = hot; called with
confidence 85 it returns depth = debated (not known as the claim stated:
the ≥3-recent-papers branch of the depth precedence fires first). -/
theorem claimC2_scenarioB (papers : List FrontierPaper) (conf : Option ℚ) (y : Int)
    (hlen : papers.length = 12)
    (h4 : (papers.filter fun p => decide (y - 2 ≤ p.year)).length = 4) :
    (detectFrontierFromPapers papers conf y).researchHeat = .hot
    ∧ (detectFrontierFromPapers papers (some 85) y).depth = .debated := by
  have hsub := veryRecent_le_recent papers y
  have hr3 : 3 ≤ (papers.filter fun p => decide (y - 3 ≤ p.year)).length := by omega
  have hne : (papers.filter fun p => decide (y - 2 ≤ p.year)) ≠ [] := by
    intro hnil
    rw [hnil] at h4
    simp at h4
  obtain ⟨p, hp⟩ := List.exists_mem_of_ne_nil _ hne
  have hmem := List.mem_filter.mp hp
  have hpy : y - 2 ≤ p.year := by simpa using hmem.2
  have hlat : y - 2 ≤ listMaxInt (papers.map fun q => q.year) :=
    le_trans hpy (le_listMaxInt (List.mem_map_of_mem _ hmem.1))
  have h1 : ¬ papers.length = 0 := by omega
  have h2 : ¬ (papers.length ≤ 2 ∧
      (papers.filter fun p => decide (y - 3 ≤ p.year)).length = 0) := by
    rintro ⟨ha, -⟩
    omega
  have h3 : ¬ listMaxInt (papers.map fun q => q.year) < y - 5 := by omega
  constructor
  · rw [detect_eq_of_active papers conf y h1 h2 h3]
    show researchHeatOf papers y = .hot
    unfold researchHeatOf
    rw [if_pos (by omega : 3 ≤ (papers.filter fun p => decide (y - 2 ≤ p.year)).length)]
  · rw [detect_eq_of_active papers (some 85) y h1 h2 h3]
    show depthOf papers (some 85) y = .debated
    unfold depthOf
    rw [if_neg ?_, if_pos (Or.inl hr3)]
    rintro (ha | hb)
    · omega
    · revert hb
      norm_num [confLt]

/-- Counterexample to claim C2 as stated: the concrete scenario-B input (12
papers, 4 of the last 2 years relative to 2026) with confidence 85 yields
researchHeat = hot but depth = debated, not known. -/
theorem claimC2_scenarioB_counterexample :
    papersScenarioB.length = 12
    ∧ (papersScenarioB.filter fun p => decide ((2026 : Int) - 2 ≤ p.year)).length = 4
    ∧ (detectFrontierFromPapers papersScenarioB (some 85) 2026).researchHeat = .hot
    ∧ (detectFrontierFromPapers papersScenarioB (some 85) 2026).depth ≠ DepthLevel.known := by
  decide

/-- Witness instantiating claim C2 at the concrete scenario-B input. -/
theorem claimC2_scenarioB_witness :
    (detectFrontierFromPapers papersScenarioB (some 85) 2026).researchHeat = .hot
    ∧ (detectFrontierFromPapers papersScenarioB (some 85) 2026).depth = .debated :=
  claimC2_scenarioB papersScenarioB (some 85) 2026 (by decide) (by decide)

/-! ## Claim C8 -/

/-- Claim C8, confirmed.  detectFrontierFromPapers returns isFrontier = true
exactly when the paper list is empty, or it has at most 2 papers none within
the last 3 years, or the most recent paper's year is more than 5 years before
the current year; the three branches carry pairwise distinct reason strings;
and the empty list yields isFrontier = true, researchHeat = dormant,
depth = frontier. -/
theorem claimC8_frontier_characterization (papers : List FrontierPaper)
    (conf : Option ℚ) (y : Int) :
    ((detectFrontierFromPapers papers conf y).isFrontier = true ↔
      (papers.length = 0
        ∨ (papers.length ≤ 2 ∧ (papers.filter fun p => decide (y - 3 ≤ p.year)).length = 0)
        ∨ listMaxInt (papers.map fun p => p.year) < y - 5))
    ∧ (papers = [] →
        detectFrontierFromPapers papers conf y =
          ⟨true, some frontierReasonNoPapers, .frontier, .dormant⟩)
    ∧ (¬ papers.length = 0 →
        papers.length ≤ 2 ∧ (papers.filter fun p => decide (y - 3 ≤ p.year)).length = 0 →
        (detectFrontierFromPapers papers conf y).frontierReason =
          some (frontierReasonFewPapers papers.length))
    ∧ (¬ papers.length = 0 →
        ¬ (papers.length ≤ 2 ∧ (papers.filter fun p => decide (y - 3 ≤ p.year)).length = 0) →
        listMaxInt (papers.map fun p => p.year) < y - 5 →
        (detectFrontierFromPapers papers conf y).frontierReason =
          some (frontierReasonDormant (listMaxInt (papers.map fun p => p.year))))
    ∧ (frontierReasonNoPapers ≠ frontierReasonFewPapers papers.length
        ∧ frontierReasonNoPapers ≠
            frontierReasonDormant (listMaxInt (papers.map fun p => p.year))
        ∧ frontierReasonFewPapers papers.length ≠
            frontierReasonDormant (listMaxInt (papers.map fun p => p.year))) := by
  refine ⟨?_, ?_, ?_, ?_, frontierReasons_pairwise_distinct _ _⟩
  · constructor
    · intro hF
      by_cases h1 : papers.length = 0
      · exact Or.inl h1
      · by_cases h2 : papers.length ≤ 2 ∧
            (papers.filter fun p => decide (y - 3 ≤ p.year)).length = 0
        · exact Or.inr (Or.inl h2)
        · by_cases h3 : listMaxInt (papers.map fun p => p.year) < y - 5
          · exact Or.inr (Or.inr h3)
          · rw [detect_eq_of_active papers conf y h1 h2 h3] at hF
            cases hF
    · intro h
      by_cases h1 : papers.length = 0
      · rw [detect_eq_of_empty papers conf y h1]
      · by_cases h2 : papers.length ≤ 2 ∧
            (papers.filter fun p => decide (y - 3 ≤ p.year)).length = 0
        · rw [detect_eq_of_few papers conf y h1 h2]
        · by_cases h3 : listMaxInt (papers.map fun p => p.year) < y - 5
          · rw [detect_eq_of_stale papers conf y h1 h2 h3]
          · rcases h with h | h | h
            · exact absurd h h1
            · exact absurd h h2
            · exact absurd h h3
  · rintro rfl
    rw [detect_eq_of_empty [] conf y rfl]
    rfl
  · intro h1 h2
    rw [detect_eq_of_few papers conf y h1 h2]
  · intro h1 h2 h3
    rw [detect_eq_of_stale papers conf y h1 h2 h3]

/-- Witness instantiating claim C8 at the empty paper list. -/
theorem claimC8_frontier_characterization_witness :
    detectFrontierFromPapers [] (some 85) 2026 =
      ⟨true, some frontierReasonNoPapers, .frontier, .dormant⟩ :=
  (claimC8_frontier_characterization [] (some 85) 2026).2.1 rfl

/-! ## Claim C10 -/

lemma executeTool_congr (P Q : ProviderEnv) (call : ToolCall)
    (h1 : ∀ q, P.searchPapers q (paperSearchLimit call.args) =
      Q.searchPapers q (paperSearchLimit call.args))
    (h2 : ∀ q, P.searchWeb q (webSearchLimit call.args) =
      Q.searchWeb q (webSearchLimit call.args))
    (h3 : ∀ pid, P.getPaperDetails pid = Q.getPaperDetails pid) :
    executeTool P call = executeTool Q call := by
  unfold executeTool
  split_ifs
  · rw [h1]
  · rfl
  · rw [h2]
  · rfl
  · rw [h3]
  · rfl
  · rfl
  · rfl
  · rfl

/-- Claim C10, confirmed.  The limit passed to the paper-search provider is
clamped into [1, 20] with a missing or zero limit defaulting to 10; the limit
passed to the web-search provider is clamped into [1, 10] with a missing or
zero limit defaulting to 5; and executeTool consults the providers only at
those clamped limits. -/
theorem claimC10_limit_clamping (args : Args) :
    (1 ≤ paperSearchLimit args ∧ paperSearchLimit args ≤ 20)
    ∧ (1 ≤ webSearchLimit args ∧ webSearchLimit args ≤ 10)
    ∧ (args.limit = none ∨ args.limit = some 0 →
        paperSearchLimit args = 10 ∧ webSearchLimit args = 5)
    ∧ (∀ n : Int, args.limit = some n → 20 < n → paperSearchLimit args = 20)
    ∧ (∀ n : Int, args.limit = some n → 10 < n → webSearchLimit args = 10)
    ∧ (∀ n : Int, args.limit = some n → n < 0 →
        paperSearchLimit args = 1 ∧ webSearchLimit args = 1)
    ∧ (∀ (P Q : ProviderEnv) (call : ToolCall),
        (∀ q, P.searchPapers q (paperSearchLimit call.args) =
          Q.searchPapers q (paperSearchLimit call.args)) →
        (∀ q, P.searchWeb q (webSearchLimit call.args) =
          Q.searchWeb q (webSearchLimit call.args)) →
        (∀ pid, P.getPaperDetails pid = Q.getPaperDetails pid) →
        executeTool P call = executeTool Q call) := by
  refine ⟨⟨?_, ?_⟩, ⟨?_, ?_⟩, ?_, ?_, ?_, ?_,
    fun P Q call h1 h2 h3 => executeTool_congr P Q call h1 h2 h3⟩ <;>
    simp only [paperSearchLimit, webSearchLimit]
  · rcases args.limit with _ | n <;> simp [jsNumOr]
  · rcases args.limit with _ | n <;> simp [jsNumOr]
  · rcases args.limit with _ | n <;> simp [jsNumOr]
  · rcases args.limit with _ | n <;> simp [jsNumOr]
  · rintro (hl | hl) <;> rw [hl] <;> norm_num [jsNumOr]
  · intro n hl hn
    rw [hl]
    simp only [jsNumOr]
    split
    · omega
    · omega
  · intro n hl hn
    rw [hl]
    simp only [jsNumOr]
    split
    · omega
    · omega
  · intro n hl hn
    rw [hl]
    simp only [jsNumOr]
    refine ⟨?_, ?_⟩ <;> (split <;> omega)

/-- Witness instantiating claim C10 at concrete limits 50, 0 and -3. -/
theorem claimC10_limit_clamping_witness :
    paperSearchLimit { limit := some 50 } = 20
    ∧ (paperSearchLimit { limit := some 0 } = 10 ∧ webSearchLimit { limit := some 0 } = 5)
    ∧ webSearchLimit { limit := some (-3) } = 1 :=
  ⟨(claimC10_limit_clamping { limit := some 50 }).2.2.2.1 50 rfl (by norm_num),
   (claimC10_limit_clamping { limit := some 0 }).2.2.1 (Or.inr rfl),
   ((claimC10_limit_clamping { limit := some (-3) }).2.2.2.2.2.1 (-3) rfl (by norm_num)).2⟩

/-! ## Claim C7 -/

/-- Claim C7, confirmed.  For every tool call — including unknown tool names,
invalid arguments, and provider calls that throw — executeTool returns a
ToolResult (it is a total function, so nothing escapes its boundary): the
result keeps the call's name, its `error` field is set exactly on the failure
cases enumerated by toolCallFails, a failing call carries a null result, and
a successful call carries a payload and no error. -/
theorem claimC7_error_isolation (P : ProviderEnv) (call : ToolCall) :
    (executeTool P call).name = call.name
    ∧ (executeTool P call).error.isSome = toolCallFails P call
    ∧ (toolCallFails P call = true → (executeTool P call).result = none)
    ∧ (toolCallFails P call = false →
        (executeTool P call).error = none ∧ (executeTool P call).result.isSome = true) := by
  by_cases hA : call.name = "search_academic_papers"
  · cases hq : call.args.query.isSome
    · simp [executeTool, toolCallFails, hA, hq]
    · cases hres : P.searchPapers (call.args.query.getD "") (paperSearchLimit call.args) <;>
        simp [executeTool, toolCallFails, hA, hq, hres]
  · by_cases hB : call.name = "search_web"
    · cases hq : call.args.query.isSome
      · simp [executeTool, toolCallFails, hA, hB, hq]
      · cases hres : P.searchWeb (call.args.query.getD "") (webSearchLimit call.args) <;>
          simp [executeTool, toolCallFails, hA, hB, hq, hres]
    · by_cases hC : call.name = "get_paper_details"
      · cases hq : call.args.paperId.isSome
        · simp [executeTool, toolCallFails, hA, hB, hC, hq]
        · cases hres : P.getPaperDetails (call.args.paperId.getD "")
          · simp [executeTool, toolCallFails, hA, hB, hC, hq, hres]
          · rename_i details
            cases details <;>
              simp [executeTool, toolCallFails, hA, hB, hC, hq, hres]
      · by_cases hD : call.name = "finish_research"
        · cases hsum : call.args.summary.isSome <;>
            cases hconf : call.args.confidence.isSome <;>
            simp [executeTool, toolCallFails, hA, hB, hC, hD, hsum, hconf]
        · simp [executeTool, toolCallFails, hA, hB, hC, hD]

/-- Witness instantiating claim C7 at a concrete unknown-tool call. -/
theorem claimC7_error_isolation_witness :
    (executeTool trivialProviders bogusCall).name = bogusCall.name
    ∧ (executeTool trivialProviders bogusCall).error.isSome = true := by
  refine ⟨(claimC7_error_isolation trivialProviders bogusCall).1, ?_⟩
  rw [(claimC7_error_isolation trivialProviders bogusCall).2.1]
  decide

/-! ## Claim C6 -/

lemma executeToolsWithLimitGo_eq (P : ProviderEnv) (lim : Nat) (hlim : 1 ≤ lim) :
    ∀ fuel q, q.length ≤ fuel →
      executeToolsWithLimitGo P lim fuel q = q.map (executeTool P) := by
  intro fuel
  induction fuel with
  | zero =>
      intro q hq
      cases q with
      | nil => rfl
      | cons c cs => simp at hq
  | succ n ih =>
      intro q hq
      cases q with
      | nil => rfl
      | cons c cs =>
          have hdrop : ((c :: cs).drop lim).length ≤ n := by
            rw [List.length_drop]
            simp only [List.length_cons] at hq ⊢
            omega
          calc executeToolsWithLimitGo P lim (n + 1) (c :: cs)
              = ((c :: cs).take lim).map (executeTool P) ++
                  executeToolsWithLimitGo P lim n ((c :: cs).drop lim) := rfl
            _ = ((c :: cs).take lim).map (executeTool P) ++
                  ((c :: cs).drop lim).map (executeTool P) := by
                rw [ih _ hdrop]
            _ = (c :: cs).map (executeTool P) := by
                rw [← List.map_append, List.take_append_drop]

/-- Claim C6, confirmed.  executeToolsParallel returns one outcome per call,
the outcome at index i being the execution of the call at index i (the
deterministic denotation of Promise.all, which pairs outcomes with calls by
index regardless of completion order); executeToolsWithLimit agrees with it
for every concurrency limit ≥ 1. -/
theorem claimC6_order_preservation (P : ProviderEnv) (calls : List ToolCall) :
    (executeToolsParallel P calls).length = calls.length
    ∧ (∀ i : Nat, (executeToolsParallel P calls)[i]? = (calls[i]?).map (executeTool P))
    ∧ (∀ lim : Nat, 1 ≤ lim →
        executeToolsWithLimit P calls lim = executeToolsParallel P calls) := by
  refine ⟨by simp [executeToolsParallel], fun i => ?_, fun lim hlim => ?_⟩
  · simp [executeToolsParallel]
  · unfold executeToolsWithLimit executeToolsParallel
    exact executeToolsWithLimitGo_eq P lim hlim calls.length calls (le_refl _)

/-- Witness instantiating claim C6 at three concrete calls and limit 2. -/
theorem claimC6_order_preservation_witness :
    (executeToolsParallel trivialProviders threeCalls).length = threeCalls.length
    ∧ (executeToolsParallel trivialProviders threeCalls)[1]? =
        (threeCalls[1]?).map (executeTool trivialProviders)
    ∧ executeToolsWithLimit trivialProviders threeCalls 2 =
        executeToolsParallel trivialProviders threeCalls :=
  ⟨(claimC6_order_preservation trivialProviders threeCalls).1,
   (claimC6_order_preservation trivialProviders threeCalls).2.1 1,
   (claimC6_order_preservation trivialProviders threeCalls).2.2 2 (by decide)⟩

/-! ## Claim C5 -/

lemma paperSeen_iff (l : List PaperObj) (p : PaperObj) :
    (l.any fun q => decide (q.paperId = p.paperId)) = true ↔
      p.paperId ∈ l.map fun q => q.paperId := by
  simp only [List.any_eq_true, decide_eq_true_eq, List.mem_map]

lemma webSeen_iff (l : List WebSearchResult) (r : WebSearchResult) :
    (l.any fun q => decide (q.url = r.url)) = true ↔
      r.url ∈ l.map fun q => q.url := by
  simp only [List.any_eq_true, decide_eq_true_eq, List.mem_map]

lemma insertPaperDedup_eq_of_seen (l : List PaperObj) (p : PaperObj)
    (h : (l.any fun q => decide (q.paperId = p.paperId)) = true) :
    insertPaperDedup l p = l := by
  unfold insertPaperDedup
  rw [if_pos h]

lemma insertWebDedup_eq_of_seen (l : List WebSearchResult) (r : WebSearchResult)
    (h : (l.any fun q => decide (q.url = r.url)) = true) :
    insertWebDedup l r = l := by
  unfold insertWebDedup
  rw [if_pos h]

lemma insertPaperDedup_keys_toFinset (l : List PaperObj) (p : PaperObj) :
    ((insertPaperDedup l p).map fun q => q.paperId).toFinset =
      insert p.paperId (l.map fun q => q.paperId).toFinset := by
  unfold insertPaperDedup
  split_ifs with h
  · exact (Finset.insert_eq_self.mpr (List.mem_toFinset.mpr ((paperSeen_iff l p).mp h))).symm
  · rw [List.map_append]
    ext a
    simp [or_comm]

lemma insertWebDedup_keys_toFinset (l : List WebSearchResult) (r : WebSearchResult) :
    ((insertWebDedup l r).map fun q => q.url).toFinset =
      insert r.url (l.map fun q => q.url).toFinset := by
  unfold insertWebDedup
  split_ifs with h
  · exact (Finset.insert_eq_self.mpr (List.mem_toFinset.mpr ((webSeen_iff l r).mp h))).symm
  · rw [List.map_append]
    ext a
    simp [or_comm]

lemma insertPaperDedup_keys_nodup (l : List PaperObj) (p : PaperObj)
    (h : (l.map fun q => q.paperId).Nodup) :
    ((insertPaperDedup l p).map fun q => q.paperId).Nodup := by
  unfold insertPaperDedup
  split_ifs with hs
  · exact h
  · rw [List.map_append]
    rw [List.nodup_append]
    refine ⟨h, List.nodup_singleton _, ?_⟩
    intro a ha hb
    simp only [List.map_cons, List.map_nil, List.mem_singleton] at hb
    exact hs ((paperSeen_iff l p).mpr (hb ▸ ha))

lemma insertWebDedup_keys_nodup (l : List WebSearchResult) (r : WebSearchResult)
    (h : (l.map fun q => q.url).Nodup) :
    ((insertWebDedup l r).map fun q => q.url).Nodup := by
  unfold insertWebDedup
  split_ifs with hs
  · exact h
  · rw [List.map_append]
    rw [List.nodup_append]
    refine ⟨h, List.nodup_singleton _, ?_⟩
    intro a ha hb
    simp only [List.map_cons, List.map_nil, List.mem_singleton] at hb
    exact hs ((webSeen_iff l r).mpr (hb ▸ ha))

lemma foldl_insertPaper_nodup (ps : List PaperObj) :
    ∀ l, (l.map fun q => q.paperId).Nodup →
      ((ps.foldl insertPaperDedup l).map fun q => q.paperId).Nodup := by
  induction ps with
  | nil => exact fun l h => h
  | cons p ps ih => exact fun l h => ih _ (insertPaperDedup_keys_nodup l p h)

lemma foldl_insertWeb_nodup (ws : List WebSearchResult) :
    ∀ l, (l.map fun q => q.url).Nodup →
      ((ws.foldl insertWebDedup l).map fun q => q.url).Nodup := by
  induction ws with
  | nil => exact fun l h => h
  | cons w ws ih => exact fun l h => ih _ (insertWebDedup_keys_nodup l w h)

lemma foldl_insertPaper_toFinset (ps : List PaperObj) :
    ∀ l, ((ps.foldl insertPaperDedup l).map fun q => q.paperId).toFinset =
      (l.map fun q => q.paperId).toFinset ∪ (ps.map fun q => q.paperId).toFinset := by
  induction ps with
  | nil => intro l; simp
  | cons p ps ih =>
      intro l
      rw [List.foldl_cons, ih, insertPaperDedup_keys_toFinset]
      ext a
      simp

lemma foldl_insertWeb_toFinset (ws : List WebSearchResult) :
    ∀ l, ((ws.foldl insertWebDedup l).map fun q => q.url).toFinset =
      (l.map fun q => q.url).toFinset ∪ (ws.map fun q => q.url).toFinset := by
  induction ws with
  | nil => intro l; simp
  | cons w ws ih =>
      intro l
      rw [List.foldl_cons, ih, insertWebDedup_keys_toFinset]
      ext a
      simp

lemma foldl_insertPaper_noop (ps : List PaperObj) :
    ∀ l, (∀ p ∈ ps, p.paperId ∈ l.map fun q => q.paperId) →
      ps.foldl insertPaperDedup l = l := by
  induction ps with
  | nil => exact fun l _ => rfl
  | cons p ps ih =>
      intro l h
      rw [List.foldl_cons,
        insertPaperDedup_eq_of_seen _ _ ((paperSeen_iff l p).mpr (h p (List.mem_cons_self p ps)))]
      exact ih l fun p' hp' => h p' (List.mem_cons_of_mem _ hp')

lemma foldl_insertWeb_noop (ws : List WebSearchResult) :
    ∀ l, (∀ w ∈ ws, w.url ∈ l.map fun q => q.url) →
      ws.foldl insertWebDedup l = l := by
  induction ws with
  | nil => exact fun l _ => rfl
  | cons w ws ih =>
      intro l h
      rw [List.foldl_cons,
        insertWebDedup_eq_of_seen _ _ ((webSeen_iff l w).mpr (h w (List.mem_cons_self w ws)))]
      exact ih l fun w' hw' => h w' (List.mem_cons_of_mem _ hw')

lemma accumulateOne_eq (ctx : ResearchContext) (r : ToolResult) :
    accumulateOne ctx r = { ctx with
      collectedPapers := (qualifyingPapers r).foldl insertPaperDedup ctx.collectedPapers,
      collectedWebResults :=
        (qualifyingWebResults r).foldl insertWebDedup ctx.collectedWebResults } := by
  unfold accumulateOne qualifyingPapers qualifyingWebResults
  by_cases he : jsTruthyOptStr r.error = true
  · simp [he]
  · rw [Bool.not_eq_true] at he
    by_cases hA : r.name = "search_academic_papers"
    · have hW : ¬ r.name = "search_web" := by rw [hA]; decide
      rcases hr : r.result with _ | payload
      · simp [he, hA, hW, hr]
      · cases payload <;> simp [he, hA, hW, hr]
    · by_cases hW : r.name = "search_web"
      · rcases hr : r.result with _ | payload
        · simp [he, hA, hW, hr]
        · cases payload <;> simp [he, hA, hW, hr]
      · simp [he, hA, hW]

lemma accumulateResults_eq (rs : List ToolResult) :
    ∀ ctx, accumulateResults ctx rs = { ctx with
      collectedPapers := (offeredPapers rs).foldl insertPaperDedup ctx.collectedPapers,
      collectedWebResults :=
        (offeredWebResults rs).foldl insertWebDedup ctx.collectedWebResults } := by
  induction rs with
  | nil => intro ctx; rfl
  | cons r rs ih =>
      intro ctx
      show accumulateResults (accumulateOne ctx r) rs = _
      rw [ih (accumulateOne ctx r), accumulateOne_eq]
      simp only [offeredPapers, offeredWebResults, List.foldl_append]

lemma accumulateResults_append (ctx : ResearchContext) (rs1 rs2 : List ToolResult) :
    accumulateResults ctx (rs1 ++ rs2) =
      accumulateResults (accumulateResults ctx rs1) rs2 := by
  unfold accumulateResults
  exact List.foldl_append accumulateOne ctx rs1 rs2

/-- Claim C5, confirmed.  Starting from empty collections, any sequence of
accumulateResults batches leaves collectedPapers with pairwise-distinct
paperId keys whose set is exactly the set of keys ever offered (hence exactly
one entry per distinct key), and likewise collectedWebResults keyed by url;
an insertion whose key was already seen is a no-op that neither changes the
collections nor overwrites the stored entry, and re-accumulating the same
batch is idempotent.  Batch sequencing composes by list append, so one
results list represents any sequence of accumulate operations. -/
theorem claimC5_dedup_invariant (ctx0 : ResearchContext) (rs : List ToolResult)
    (hp : ctx0.collectedPapers = []) (hw : ctx0.collectedWebResults = []) :
    ((accumulateResults ctx0 rs).collectedPapers.map fun p => p.paperId).Nodup
    ∧ ((accumulateResults ctx0 rs).collectedPapers.map fun p => p.paperId).toFinset
        = ((offeredPapers rs).map fun p => p.paperId).toFinset
    ∧ (accumulateResults ctx0 rs).collectedPapers.length
        = ((offeredPapers rs).map fun p => p.paperId).toFinset.card
    ∧ ((accumulateResults ctx0 rs).collectedWebResults.map fun r => r.url).Nodup
    ∧ ((accumulateResults ctx0 rs).collectedWebResults.map fun r => r.url).toFinset
        = ((offeredWebResults rs).map fun r => r.url).toFinset
    ∧ (accumulateResults ctx0 rs).collectedWebResults.length
        = ((offeredWebResults rs).map fun r => r.url).toFinset.card
    ∧ (∀ (ctx : ResearchContext) (rs' : List ToolResult),
        accumulateResults (accumulateResults ctx rs') rs' = accumulateResults ctx rs')
    ∧ (∀ (papers : List PaperObj) (p : PaperObj),
        (papers.any fun q => decide (q.paperId = p.paperId)) = true →
        insertPaperDedup papers p = papers)
    ∧ (∀ (results : List WebSearchResult) (w : WebSearchResult),
        (results.any fun q => decide (q.url = w.url)) = true →
        insertWebDedup results w = results)
    ∧ (∀ (ctx : ResearchContext) (rs1 rs2 : List ToolResult),
        accumulateResults ctx (rs1 ++ rs2) =
          accumulateResults (accumulateResults ctx rs1) rs2) := by
  have hnodupP : ((accumulateResults ctx0 rs).collectedPapers.map fun p => p.paperId).Nodup := by
    rw [accumulateResults_eq]
    exact foldl_insertPaper_nodup _ _ (by rw [hp]; exact List.nodup_nil)
  have hsetP : ((accumulateResults ctx0 rs).collectedPapers.map fun p => p.paperId).toFinset
      = ((offeredPapers rs).map fun p => p.paperId).toFinset := by
    rw [accumulateResults_eq]
    show ((((offeredPapers rs)).foldl insertPaperDedup ctx0.collectedPapers).map
      fun p => p.paperId).toFinset = _
    rw [foldl_insertPaper_toFinset, hp]
    simp
  have hnodupW : ((accumulateResults ctx0 rs).collectedWebResults.map fun r => r.url).Nodup := by
    rw [accumulateResults_eq]
    exact foldl_insertWeb_nodup _ _ (by rw [hw]; exact List.nodup_nil)
  have hsetW : ((accumulateResults ctx0 rs).collectedWebResults.map fun r => r.url).toFinset
      = ((offeredWebResults rs).map fun r => r.url).toFinset := by
    rw [accumulateResults_eq]
    show ((((offeredWebResults rs)).foldl insertWebDedup ctx0.collectedWebResults).map
      fun r => r.url).toFinset = _
    rw [foldl_insertWeb_toFinset, hw]
    simp
  refine ⟨hnodupP, hsetP, ?_, hnodupW, hsetW, ?_, ?_, ?_, ?_, accumulateResults_append⟩
  · rw [← hsetP, List.toFinset_card_of_nodup hnodupP, List.length_map]
  · rw [← hsetW, List.toFinset_card_of_nodup hnodupW, List.length_map]
  · intro ctx rs'
    rw [accumulateResults_eq rs' ctx, accumulateResults_eq rs']
    simp only
    rw [foldl_insertPaper_noop, foldl_insertWeb_noop]
    · intro w hwmem
      have : w.url ∈ ((offeredWebResults rs').foldl insertWebDedup
          ctx.collectedWebResults).map fun q => q.url := by
        rw [← List.mem_toFinset, foldl_insertWeb_toFinset]
        exact Finset.mem_union_right _ (List.mem_toFinset.mpr (List.mem_map_of_mem _ hwmem))
      exact this
    · intro p hpmem
      rw [← List.mem_toFinset, foldl_insertPaper_toFinset]
      exact Finset.mem_union_right _ (List.mem_toFinset.mpr (List.mem_map_of_mem _ hpmem))
  · exact insertPaperDedup_eq_of_seen
  · exact insertWebDedup_eq_of_seen

/-- Witness instantiating claim C5 at a concrete batch with overlapping paper
keys and web urls. -/
theorem claimC5_dedup_invariant_witness :
    ((accumulateResults emptyCtx dupResults).collectedPapers.map fun p => p.paperId).Nodup
    ∧ (accumulateResults emptyCtx dupResults).collectedPapers.length
        = ((offeredPapers dupResults).map fun p => p.paperId).toFinset.card
    ∧ (accumulateResults emptyCtx dupResults).collectedWebResults.length
        = ((offeredWebResults dupResults).map fun r => r.url).toFinset.card :=
  ⟨(claimC5_dedup_invariant emptyCtx dupResults rfl rfl).1,
   (claimC5_dedup_invariant emptyCtx dupResults rfl rfl).2.2.1,
   (claimC5_dedup_invariant emptyCtx dupResults rfl rfl).2.2.2.2.2.1⟩

/-! ## Loop lemmas -/

lemma agentStep_counts (env : AgentEnv) (s : LoopState) :
    (agentStep env s).ctx.iterations = s.ctx.iterations + 1
    ∧ (agentStep env s).reasonCalls = s.reasonCalls + 1 := by
  cases hresp : env.respond s.messages with
  | error msg => simp [agentStep, hresp]
  | ok parts =>
      by_cases hz : (extractToolCalls parts).length = 0
      · simp [agentStep, hresp, hz]
      · cases hfind : (extractToolCalls parts).find? fun c => decide (c.name = "finish_research") with
        | some finishCall => simp [agentStep, hresp, hz, hfind]
        | none =>
            simp only [agentStep, hresp]
            rw [if_neg hz]
            simp only [hfind]
            constructor <;> simp [accumulateResults_eq]

lemma agentStepW_core_counts (env : AgentEnv) (t : StreamState) :
    (agentStepW env t).core.ctx.iterations = t.core.ctx.iterations + 1
    ∧ (agentStepW env t).core.reasonCalls = t.core.reasonCalls + 1 := by
  cases hresp : env.respond t.core.messages with
  | error msg => simp [agentStepW, hresp]
  | ok parts =>
      by_cases hz : (extractToolCalls parts).length = 0
      · simp [agentStepW, hresp, hz]
      · cases hfind : (extractToolCalls parts).find? fun c => decide (c.name = "finish_research") with
        | some finishCall => simp [agentStepW, hresp, hz, hfind]
        | none =>
            simp only [agentStepW, hresp]
            rw [if_neg hz]
            simp only [hfind]
            constructor <;> simp [accumulateResults_eq]

lemma runAgentLoop_inv (env : AgentEnv) (maxIter : Nat) (Q : LoopState → Prop)
    (hstep : ∀ s, Q s → s.isComplete = false → s.broke = false →
      s.ctx.iterations < maxIter → Q (agentStep env s)) :
    ∀ fuel s, Q s → Q (runAgentLoop env maxIter fuel s) := by
  intro fuel
  induction fuel with
  | zero => exact fun s h => h
  | succ n ih =>
      intro s h
      show Q (if s.isComplete ∨ s.broke ∨ maxIter ≤ s.ctx.iterations then s
        else if MAX_DURATION_MS < env.elapsedAt s.ctx.iterations then s
        else runAgentLoop env maxIter n (agentStep env s))
      split_ifs with h1 h2
      · exact h
      · exact h
      · push_neg at h1
        exact ih _ (hstep s h (by simpa using h1.1) (by simpa using h1.2.1) h1.2.2)

lemma runAgentLoopW_inv (env : AgentEnv) (maxIter : Nat) (Q : StreamState → Prop)
    (hstep : ∀ t, Q t → t.core.isComplete = false → t.core.broke = false →
      t.core.ctx.iterations < maxIter → Q (agentStepW env t)) :
    ∀ fuel t, Q t → Q (runAgentLoopW env maxIter fuel t) := by
  intro fuel
  induction fuel with
  | zero => exact fun t h => h
  | succ n ih =>
      intro t h
      show Q (if t.core.isComplete ∨ t.core.broke ∨ maxIter ≤ t.core.ctx.iterations then t
        else runAgentLoopW env maxIter n (agentStepW env t))
      split_ifs with h1
      · exact h
      · push_neg at h1
        exact ih _ (hstep t h (by simpa using h1.1) (by simpa using h1.2.1) h1.2.2)

lemma runAgentLoop_of_stop (env : AgentEnv) (maxIter fuel : Nat) (s : LoopState)
    (h : s.isComplete = true ∨ s.broke = true ∨ maxIter ≤ s.ctx.iterations) :
    runAgentLoop env maxIter fuel s = s := by
  cases fuel with
  | zero => rfl
  | succ n =>
      show (if s.isComplete ∨ s.broke ∨ maxIter ≤ s.ctx.iterations then s
        else if MAX_DURATION_MS < env.elapsedAt s.ctx.iterations then s
        else runAgentLoop env maxIter n (agentStep env s)) = s
      rw [if_pos (by simpa using h)]

lemma runAgentLoopW_of_stop (env : AgentEnv) (maxIter fuel : Nat) (t : StreamState)
    (h : t.core.isComplete = true ∨ t.core.broke = true ∨ maxIter ≤ t.core.ctx.iterations) :
    runAgentLoopW env maxIter fuel t = t := by
  cases fuel with
  | zero => rfl
  | succ n =>
      show (if t.core.isComplete ∨ t.core.broke ∨ maxIter ≤ t.core.ctx.iterations then t
        else runAgentLoopW env maxIter n (agentStepW env t)) = t
      rw [if_pos (by simpa using h)]

lemma one_le_effectiveMaxIterations (config : AgentConfig) :
    1 ≤ effectiveMaxIterations config := by
  rcases config with ⟨mi, mp, mc⟩
  rcases mi with _ | (_ | n) <;> simp [effectiveMaxIterations, jsNatOr, MAX_ITERATIONS]

/-! ## Claim C4 -/

/-- Claim C4, confirmed.  Both loop variants terminate with at most
`effectiveMaxIterations config` invocations of the Reasoning Client
(`reasonCalls` counts exactly the `generateContent` call sites executed), the
final iterations counter equals the number of invocations and never exceeds
the cap, the returned ResearchContext carries the same bounded counter, and
every loop pass increments the counter by exactly one — so it never
decreases across the run. -/
theorem claimC4_iteration_bound (env : AgentEnv) (topic branchType : String)
    (analysis : Option String) (config : AgentConfig) :
    (runResearchAgentAux env topic branchType analysis config).ctx.iterations ≤
        effectiveMaxIterations config
    ∧ (runResearchAgentAux env topic branchType analysis config).reasonCalls =
        (runResearchAgentAux env topic branchType analysis config).ctx.iterations
    ∧ (runResearchAgentWithProgressAux env topic branchType analysis config).core.ctx.iterations ≤
        effectiveMaxIterations config
    ∧ (runResearchAgentWithProgressAux env topic branchType analysis config).core.reasonCalls =
        (runResearchAgentWithProgressAux env topic branchType analysis config).core.ctx.iterations
    ∧ (∀ s : LoopState, (agentStep env s).ctx.iterations = s.ctx.iterations + 1)
    ∧ (∀ t : StreamState, (agentStepW env t).core.ctx.iterations = t.core.ctx.iterations + 1)
    ∧ (∀ ctx : ResearchContext,
        runResearchAgent env topic branchType analysis config = .ok ctx →
        ctx.iterations ≤ effectiveMaxIterations config) := by
  have hA := runAgentLoop_inv env (effectiveMaxIterations config)
    (fun s => s.ctx.iterations ≤ effectiveMaxIterations config ∧
      s.reasonCalls = s.ctx.iterations)
    (fun s hs _ _ hlt => by
      obtain ⟨h1, h2⟩ := agentStep_counts env s
      exact ⟨by omega, by omega⟩)
    (effectiveMaxIterations config)
    (initialLoopState topic branchType analysis)
    ⟨Nat.zero_le _, rfl⟩
  have hW := runAgentLoopW_inv env (effectiveMaxIterations config)
    (fun t => t.core.ctx.iterations ≤ effectiveMaxIterations config ∧
      t.core.reasonCalls = t.core.ctx.iterations)
    (fun t ht _ _ hlt => by
      obtain ⟨h1, h2⟩ := agentStepW_core_counts env t
      exact ⟨by omega, by omega⟩)
    (effectiveMaxIterations config)
    ⟨initialLoopState topic branchType analysis, []⟩
    ⟨Nat.zero_le _, rfl⟩
  refine ⟨hA.1, hA.2, hW.1, hW.2,
    fun s => (agentStep_counts env s).1,
    fun t => (agentStepW_core_counts env t).1, ?_⟩
  intro ctx hrun
  cases hkey : env.apiKeyPresent
  · rw [runResearchAgent] at hrun
    rw [hkey] at hrun
    cases hrun
  · rw [runResearchAgent] at hrun
    rw [hkey] at hrun
    simp only [if_true] at hrun
    cases hrun
    show ({ applyFallback (runResearchAgentAux env topic branchType analysis config) with
      totalTime := env.finalElapsed }).iterations ≤ effectiveMaxIterations config
    unfold applyFallback
    split <;> exact hA.1

/-- Witness instantiating claim C4 at a concrete no-tool-calls environment. -/
theorem claimC4_iteration_bound_witness :
    (runResearchAgentAux envNoTools "t" "science" none {}).ctx.iterations ≤
        effectiveMaxIterations {}
    ∧ (runResearchAgentAux envNoTools "t" "science" none {}).reasonCalls =
        (runResearchAgentAux envNoTools "t" "science" none {}).ctx.iterations :=
  ⟨(claimC4_iteration_bound envNoTools "t" "science" none {}).1,
   (claimC4_iteration_bound envNoTools "t" "science" none {}).2.1⟩

/-! ## Degenerate paper-key lemmas

The formatter stores the paper identifier under `id` while accumulateResults
dedups on `paperId`; every payload entry the executor can produce therefore
lacks the dedup key, and the collected-papers list never grows past one
entry.  In particular the two wrap-up reminder thresholds (5 and 8) are
unreachable, which is what makes the two loop variants agree. -/

lemma executeTool_result_shapes (P : ProviderEnv) (call : ToolCall) :
    (executeTool P call).result = none
    ∨ (∃ papers, (executeTool P call).result = some (formatPapersForAgent papers))
    ∨ (∃ ws, (executeTool P call).result = some (formatWebResultsForAgent ws))
    ∨ (∃ d, (executeTool P call).result = some (formatPaperDetailsForAgent d))
    ∨ (∃ a b c d, (executeTool P call).result = some (.finishPayload a b c d)) := by
  unfold executeTool
  split_ifs
  all_goals try exact Or.inl rfl
  all_goals try split
  all_goals try exact Or.inl rfl
  all_goals first
    | exact Or.inr (Or.inl ⟨_, rfl⟩)
    | exact Or.inr (Or.inr (Or.inl ⟨_, rfl⟩))
    | exact Or.inr (Or.inr (Or.inr (Or.inl ⟨_, rfl⟩)))
    | exact Or.inr (Or.inr (Or.inr (Or.inr ⟨_, _, _, _, rfl⟩)))

lemma executeTool_papersPayload_keys (P : ProviderEnv) (call : ToolCall)
    (c : Nat) (ps : List PaperObj)
    (hres : (executeTool P call).result = some (.papersPayload c ps)) :
    ∀ p ∈ ps, p.paperId = none := by
  intro p hp
  rcases executeTool_result_shapes P call with h | ⟨papers, h⟩ | ⟨ws, h⟩ | ⟨d, h⟩ |
      ⟨a, b, c', d, h⟩ <;> rw [h] at hres
  · cases hres
  · simp only [formatPapersForAgent, Option.some.injEq] at hres
    cases hres
    obtain ⟨q, hq', rfl⟩ := List.mem_map.mp hp
    rfl
  · simp [formatWebResultsForAgent] at hres
  · simp [formatPaperDetailsForAgent] at hres
  · simp at hres

lemma mem_qualifyingPapers (r : ToolResult) (p : PaperObj)
    (hp : p ∈ qualifyingPapers r) :
    ∃ c ps, r.result = some (.papersPayload c ps) ∧ p ∈ ps := by
  unfold qualifyingPapers at hp
  split_ifs at hp with he hA
  · cases hp
  · rcases hr : r.result with _ | payload <;> rw [hr] at hp
    · cases hp
    · cases payload with
      | papersPayload c ps => exact ⟨c, ps, rfl, hp⟩
      | webPayload c ws => cases hp
      | detailsPayload d => cases hp
      | finishPayload a b c d => cases hp
  · cases hp

lemma mem_offeredPapers (rs : List ToolResult) (p : PaperObj)
    (hp : p ∈ offeredPapers rs) : ∃ r ∈ rs, p ∈ qualifyingPapers r := by
  induction rs with
  | nil => cases hp
  | cons r rs ih =>
      rcases List.mem_append.mp hp with h | h
      · exact ⟨r, List.mem_cons_self r rs, h⟩
      · obtain ⟨r', hr', hp'⟩ := ih h
        exact ⟨r', List.mem_cons_of_mem r hr', hp'⟩

lemma offeredPapers_executor_keys (P : ProviderEnv) (calls : List ToolCall)
    (p : PaperObj) (hp : p ∈ offeredPapers (executeToolsParallel P calls)) :
    p.paperId = none := by
  obtain ⟨r, hr, hq⟩ := mem_offeredPapers _ p hp
  obtain ⟨c, ps, hres, hps⟩ := mem_qualifyingPapers r p hq
  obtain ⟨call, hcall, rfl⟩ := List.mem_map.mp hr
  exact executeTool_papersPayload_keys P call c ps hres p hps

lemma insertPaperDedup_degenerate (l : List PaperObj) (p : PaperObj)
    (hl : papersDegenerate l) (hp : p.paperId = none) :
    papersDegenerate (insertPaperDedup l p) := by
  unfold insertPaperDedup
  split_ifs with h
  · exact hl
  · cases l with
    | nil =>
        refine ⟨by simp, ?_⟩
        intro q hq
        have hqp : q = p := by simpa using hq
        rw [hqp]
        exact hp
    | cons q tl =>
        exfalso
        apply h
        simp only [List.any_cons, Bool.or_eq_true, decide_eq_true_eq]
        exact Or.inl ((hl.2 q (List.mem_cons_self q tl)).trans hp.symm)

lemma foldl_insertPaper_degenerate (ps : List PaperObj) :
    ∀ l, papersDegenerate l → (∀ p ∈ ps, p.paperId = none) →
      papersDegenerate (ps.foldl insertPaperDedup l) := by
  induction ps with
  | nil => exact fun l hl _ => hl
  | cons p ps ih =>
      intro l hl hk
      rw [List.foldl_cons]
      exact ih _ (insertPaperDedup_degenerate l p hl (hk p (List.mem_cons_self p ps)))
        fun p' hp' => hk p' (List.mem_cons_of_mem p hp')

lemma agentStep_degenerate (env : AgentEnv) (s : LoopState)
    (h : papersDegenerate s.ctx.collectedPapers) :
    papersDegenerate (agentStep env s).ctx.collectedPapers := by
  cases hresp : env.respond s.messages with
  | error msg => simpa [agentStep, hresp] using h
  | ok parts =>
      by_cases hz : (extractToolCalls parts).length = 0
      · simpa [agentStep, hresp, hz] using h
      · cases hfind : (extractToolCalls parts).find? fun c => decide (c.name = "finish_research") with
        | some finishCall => simpa [agentStep, hresp, hz, hfind] using h
        | none =>
            simp only [agentStep, hresp]
            rw [if_neg hz]
            simp only [hfind, accumulateResults_eq]
            exact foldl_insertPaper_degenerate _ _ h
              fun p hp => offeredPapers_executor_keys env.providers _ p hp

/-! ## Claim C3 -/

lemma agentStepW_core_eq (env : AgentEnv) (t : StreamState)
    (h : papersDegenerate t.core.ctx.collectedPapers) :
    (agentStepW env t).core = agentStep env t.core := by
  cases hresp : env.respond t.core.messages with
  | error msg => simp [agentStep, agentStepW, hresp]
  | ok parts =>
      by_cases hz : (extractToolCalls parts).length = 0
      · simp [agentStep, agentStepW, hresp, hz]
      · cases hfind : (extractToolCalls parts).find? fun c => decide (c.name = "finish_research") with
        | some finishCall => simp [agentStep, agentStepW, hresp, hz, hfind]
        | none =>
            have hdeg : papersDegenerate (agentStep env t.core).ctx.collectedPapers :=
              agentStep_degenerate env t.core h
            simp only [agentStep, hresp] at hdeg ⊢
            rw [if_neg hz] at hdeg ⊢
            simp only [hfind] at hdeg ⊢
            simp only [agentStepW, hresp]
            rw [if_neg hz]
            simp only [hfind]
            have hlen : ((accumulateResults
                { t.core.ctx with iterations := t.core.ctx.iterations + 1 }
                (executeToolsParallel env.providers (extractToolCalls parts))).collectedPapers).length ≤ 1 := by
              simpa using hdeg.1
            rw [if_neg (by omega :
              ¬ 5 ≤ ((accumulateResults
                { t.core.ctx with iterations := t.core.ctx.iterations + 1 }
                (executeToolsParallel env.providers (extractToolCalls parts))).collectedPapers).length)]
            rw [if_neg (by omega :
              ¬ 8 ≤ ((accumulateResults
                { t.core.ctx with iterations := t.core.ctx.iterations + 1 }
                (executeToolsParallel env.providers (extractToolCalls parts))).collectedPapers).length)]

lemma runAgentLoopW_core_eq (env : AgentEnv) (maxIter : Nat)
    (htime : ∀ k, env.elapsedAt k ≤ MAX_DURATION_MS) :
    ∀ fuel (t : StreamState), papersDegenerate t.core.ctx.collectedPapers →
      (runAgentLoopW env maxIter fuel t).core = runAgentLoop env maxIter fuel t.core := by
  intro fuel
  induction fuel with
  | zero => exact fun t _ => rfl
  | succ n ih =>
      intro t hdeg
      show (if t.core.isComplete ∨ t.core.broke ∨ maxIter ≤ t.core.ctx.iterations then t
          else runAgentLoopW env maxIter n (agentStepW env t)).core =
        (if t.core.isComplete ∨ t.core.broke ∨ maxIter ≤ t.core.ctx.iterations then t.core
          else if MAX_DURATION_MS < env.elapsedAt t.core.ctx.iterations then t.core
          else runAgentLoop env maxIter n (agentStep env t.core))
      split_ifs with h1 h2
      · rfl
      · exact absurd h2 (Nat.not_lt.mpr (htime _))
      · rw [ih (agentStepW env t)
          (by rw [agentStepW_core_eq env t hdeg]; exact agentStep_degenerate env t.core hdeg)]
        rw [agentStepW_core_eq env t hdeg]

/-- Claim C3, confirmed.  With the same Reasoning Client and evidence
providers, and with the wall-clock budget never exceeded (the claim itself
scopes the wall-clock cap out of the comparison), the blocking and streaming
variants return the same collected papers, web results, iteration count,
tool-call log and terminal summary: the streaming variant differs only in
emitting ProgressEvents. -/
theorem claimC3_variant_equivalence (env : AgentEnv) (topic branchType : String)
    (analysis : Option String) (config : AgentConfig)
    (htime : ∀ k, env.elapsedAt k ≤ MAX_DURATION_MS)
    (ctxA ctxW : ResearchContext) (events : List ProgressEvent)
    (hA : runResearchAgent env topic branchType analysis config = .ok ctxA)
    (hW : runResearchAgentWithProgress env topic branchType analysis config = .ok (ctxW, events)) :
    ctxA.collectedPapers = ctxW.collectedPapers
    ∧ ctxA.collectedWebResults = ctxW.collectedWebResults
    ∧ ctxA.iterations = ctxW.iterations
    ∧ ctxA.toolCalls = ctxW.toolCalls
    ∧ ctxA.researchSummary = ctxW.researchSummary
    ∧ ctxA.researchConfidence = ctxW.researchConfidence
    ∧ ctxA.frontierDetected = ctxW.frontierDetected := by
  have hcore : (runResearchAgentWithProgressAux env topic branchType analysis config).core =
      runResearchAgentAux env topic branchType analysis config := by
    unfold runResearchAgentWithProgressAux runResearchAgentAux
    exact runAgentLoopW_core_eq env (effectiveMaxIterations config) htime
      (effectiveMaxIterations config)
      ⟨initialLoopState topic branchType analysis, []⟩
      ⟨by simp [initialLoopState], by simp [initialLoopState]⟩
  cases hkey : env.apiKeyPresent
  · rw [runResearchAgent, hkey] at hA
    cases hA
  · rw [runResearchAgent, hkey] at hA
    simp only [if_true] at hA
    rw [runResearchAgentWithProgress, hkey] at hW
    simp only [if_true] at hW
    cases hA
    have hctxW : ctxW = { applyFallback
        (runResearchAgentWithProgressAux env topic branchType analysis config).core with
        totalTime := env.finalElapsed } := (congrArg Prod.fst (Except.ok.inj hW)).symm
    rw [hctxW, hcore]
    exact ⟨rfl, rfl, rfl, rfl, rfl, rfl, rfl⟩

/-- Witness instantiating claim C3 at a concrete environment that finishes on
the first pass; both variants return the same terminal context. -/
theorem claimC3_variant_equivalence_witness :
    (runResearchAgent envFinishFirst "t" "science" none {}).toOption.map
        (fun c => (c.iterations, c.researchSummary, c.researchConfidence)) =
      (runResearchAgentWithProgress envFinishFirst "t" "science" none {}).toOption.map
        (fun p => (p.1.iterations, p.1.researchSummary, p.1.researchConfidence)) := by
  cases hA : runResearchAgent envFinishFirst "t" "science" none {} with
  | error e => simp [runResearchAgent, envFinishFirst] at hA
  | ok ctxA =>
      cases hW : runResearchAgentWithProgress envFinishFirst "t" "science" none {} with
      | error e => simp [runResearchAgentWithProgress, envFinishFirst] at hW
      | ok pW =>
          obtain ⟨h1, h2, h3, h4, h5, h6, h7⟩ :=
            claimC3_variant_equivalence envFinishFirst "t" "science" none {}
              (fun k => by simp [envFinishFirst]) ctxA pW.1 pW.2 hA (by rw [hW])
          simp [Except.toOption, h3, h5, h6]

/-! ## Claim C9 -/

lemma runResearchAgent_ok_eq (env : AgentEnv) (topic branchType : String)
    (analysis : Option String) (config : AgentConfig)
    (hkey : env.apiKeyPresent = true) :
    runResearchAgent env topic branchType analysis config =
      .ok { applyFallback (runResearchAgentAux env topic branchType analysis config) with
        totalTime := env.finalElapsed } := by
  rw [runResearchAgent, hkey]
  rfl

lemma runResearchAgent_key_of_ok (env : AgentEnv) (topic branchType : String)
    (analysis : Option String) (config : AgentConfig) (ctx : ResearchContext)
    (hrun : runResearchAgent env topic branchType analysis config = .ok ctx) :
    env.apiKeyPresent = true := by
  cases hk : env.apiKeyPresent
  · rw [runResearchAgent, hk] at hrun
    simp at hrun
  · rfl

lemma applyFallback_iterations (s : LoopState) :
    (applyFallback s).iterations = s.ctx.iterations := by
  unfold applyFallback
  split <;> rfl

lemma runAgentLoop_succ_step (env : AgentEnv) (maxIter n : Nat) (s : LoopState)
    (hrun : ¬ (s.isComplete = true ∨ s.broke = true ∨ maxIter ≤ s.ctx.iterations))
    (htm : ¬ MAX_DURATION_MS < env.elapsedAt s.ctx.iterations) :
    runAgentLoop env maxIter (n + 1) s = runAgentLoop env maxIter n (agentStep env s) := by
  show (if s.isComplete ∨ s.broke ∨ maxIter ≤ s.ctx.iterations then s
    else if MAX_DURATION_MS < env.elapsedAt s.ctx.iterations then s
    else runAgentLoop env maxIter n (agentStep env s)) = _
  rw [if_neg (by simpa using hrun), if_neg htm]

/-- Claim C9, confirmed.  Whenever the non-streaming loop ends without an
explicit finish or error-escalation completion (the `isComplete` flag is
still false: iteration cap, time cap, or a response with zero tool calls),
the returned context carries the synthesized fallback summary with
confidence min(0.3 + 0.05·papers, 0.8) and frontierDetected = papers < 5;
and a Reasoning Client that never emits tool calls (with the time cap not
firing immediately) terminates after exactly 1 iteration with confidence
0.3. -/
theorem claimC9_fallback_formula (env : AgentEnv) (topic branchType : String)
    (analysis : Option String) (config : AgentConfig) (ctx : ResearchContext)
    (hrun : runResearchAgent env topic branchType analysis config = .ok ctx)
    (hforced : (runResearchAgentAux env topic branchType analysis config).isComplete = false) :
    (ctx.researchConfidence =
        some (min ((3 : ℚ)/10 + (ctx.collectedPapers.length : ℚ) * ((5 : ℚ)/100)) ((8 : ℚ)/10))
      ∧ ctx.frontierDetected = some (decide (ctx.collectedPapers.length < 5))
      ∧ ctx.researchSummary = some "Research gathered through iterative search")
    ∧ ((∀ msgs, ∃ parts, env.respond msgs = Except.ok parts ∧ extractToolCalls parts = []) →
        env.elapsedAt 0 ≤ MAX_DURATION_MS →
        ctx.iterations = 1 ∧ ctx.researchConfidence = some ((3 : ℚ)/10)) := by
  have hkey := runResearchAgent_key_of_ok env topic branchType analysis config ctx hrun
  rw [runResearchAgent_ok_eq env topic branchType analysis config hkey] at hrun
  replace hrun := (Except.ok.inj hrun).symm
  have hnc : ¬ ((runResearchAgentAux env topic branchType analysis config).isComplete = true) := by
    simp [hforced]
  have hfields :
      ctx.researchConfidence = some (min ((3 : ℚ)/10 +
        ((runResearchAgentAux env topic branchType analysis config).ctx.collectedPapers.length : ℚ)
          * ((5 : ℚ)/100)) ((8 : ℚ)/10))
      ∧ ctx.frontierDetected = some (decide
          ((runResearchAgentAux env topic branchType analysis config).ctx.collectedPapers.length < 5))
      ∧ ctx.researchSummary = some "Research gathered through iterative search"
      ∧ ctx.collectedPapers =
          (runResearchAgentAux env topic branchType analysis config).ctx.collectedPapers
      ∧ ctx.iterations =
          (runResearchAgentAux env topic branchType analysis config).ctx.iterations := by
    rw [hrun]
    unfold applyFallback
    rw [if_neg hnc]
    exact ⟨rfl, rfl, rfl, rfl, rfl⟩
  obtain ⟨hconf, hfront, hsumm, hpap, hiter⟩ := hfields
  refine ⟨⟨by rw [hconf, hpap], by rw [hfront, hpap], hsumm⟩, ?_⟩
  intro hno htime0
  obtain ⟨parts, hresp, hext⟩ := hno (initialLoopState topic branchType analysis).messages
  have hresp2 : env.respond
      [{ role := "user", parts := [Part.text (buildAgentSystemPrompt topic branchType analysis)] }] =
      Except.ok parts := hresp
  have hstep_broke : (agentStep env (initialLoopState topic branchType analysis)).broke = true := by
    simp [agentStep, initialLoopState, hresp2, hext]
  have hstep_iter :
      (agentStep env (initialLoopState topic branchType analysis)).ctx.iterations = 1 := by
    simp [agentStep, initialLoopState, hresp2, hext]
  have hstep_papers :
      (agentStep env (initialLoopState topic branchType analysis)).ctx.collectedPapers = [] := by
    simp [agentStep, initialLoopState, hresp2, hext]
  obtain ⟨k, hk⟩ := Nat.exists_eq_add_of_le (one_le_effectiveMaxIterations config)
  have haux : runResearchAgentAux env topic branchType analysis config =
      agentStep env (initialLoopState topic branchType analysis) := by
    unfold runResearchAgentAux
    rw [hk, Nat.add_comm 1 k]
    rw [runAgentLoop_succ_step env (k + 1) k (initialLoopState topic branchType analysis)
      (by simp [initialLoopState]) (by exact Nat.not_lt.mpr htime0)]
    exact runAgentLoop_of_stop env (k + 1) k _ (Or.inr (Or.inl hstep_broke))
  constructor
  · rw [hiter, haux, hstep_iter]
  · rw [hconf, haux, hstep_papers]
    norm_num

/-- Witness instantiating claim C9 at a concrete Reasoning Client that only
ever answers with plain text. -/
theorem claimC9_fallback_formula_witness :
    ((runResearchAgent envNoTools "t" "science" none {}).toOption.map fun c => c.iterations)
        = some 1
    ∧ ((runResearchAgent envNoTools "t" "science" none {}).toOption.map
        fun c => c.researchConfidence) = some (some ((3 : ℚ)/10)) := by
  cases hrun : runResearchAgent envNoTools "t" "science" none {} with
  | error e => simp [runResearchAgent, envNoTools] at hrun
  | ok ctx =>
      obtain ⟨h1, h2⟩ := (claimC9_fallback_formula envNoTools "t" "science" none {} ctx hrun
        (by decide)).2
        (fun msgs => ⟨[.text "done"], rfl, rfl⟩) (by decide)
      simp [Except.toOption, h1, h2]

/-! ## Claim C1 -/

/-- Claim C1, corrected.  The terminal summary fields of a returned context
are populated whenever the Reasoning Client never fails (so that the
error-escalation path is never taken) and every finish_research signal
carries summary, confidence and frontier_detected arguments: termination then
happens either through such a finish signal (which populates them once) or
through forced termination, where the fallback populates them.  Runs that
terminate through the Reasoning-Client-error escalation path — contrary to
the claim — return with these fields unset, as the counterexample shows. -/
theorem claimC1_terminal_fields (env : AgentEnv) (topic branchType : String)
    (analysis : Option String) (config : AgentConfig)
    (hnoerr : ∀ msgs e, env.respond msgs ≠ .error e)
    (hfinish : ∀ msgs parts, env.respond msgs = .ok parts →
      ∀ c ∈ extractToolCalls parts, c.name = "finish_research" →
        c.args.summary.isSome = true ∧ c.args.confidence.isSome = true ∧
          c.args.frontier_detected.isSome = true)
    (ctx : ResearchContext)
    (hrun : runResearchAgent env topic branchType analysis config = .ok ctx) :
    ctx.researchSummary.isSome = true ∧ ctx.researchConfidence.isSome = true ∧
      ctx.frontierDetected.isSome = true := by
  have hkey := runResearchAgent_key_of_ok env topic branchType analysis config ctx hrun
  rw [runResearchAgent_ok_eq env topic branchType analysis config hkey] at hrun
  replace hrun := (Except.ok.inj hrun).symm
  have hQ := runAgentLoop_inv env (effectiveMaxIterations config)
    (fun s => s.isComplete = true →
      s.ctx.researchSummary.isSome = true ∧ s.ctx.researchConfidence.isSome = true ∧
        s.ctx.frontierDetected.isSome = true)
    (fun s _ hC hB _ => by
      cases hresp : env.respond s.messages with
      | error msg => exact absurd hresp (hnoerr _ _)
      | ok parts =>
          by_cases hz : (extractToolCalls parts).length = 0
          · intro hcomp
            simp [agentStep, hresp, hz, hC] at hcomp
          · cases hfind : (extractToolCalls parts).find?
                fun c => decide (c.name = "finish_research") with
            | some finishCall =>
                intro _
                have hmem := List.mem_of_find?_eq_some hfind
                have hname : finishCall.name = "finish_research" := by
                  have := List.find?_some hfind
                  simpa using this
                obtain ⟨h1, h2, h3⟩ := hfinish _ _ hresp finishCall hmem hname
                simp [agentStep, hresp, hz, hfind, h1, h2, h3]
            | none =>
                intro hcomp
                simp only [agentStep, hresp] at hcomp
                rw [if_neg hz] at hcomp
                simp [hfind, hC] at hcomp)
    (effectiveMaxIterations config)
    (initialLoopState topic branchType analysis)
    (fun h => by cases h)
  rw [hrun]
  cases hC : (runResearchAgentAux env topic branchType analysis config).isComplete
  · unfold applyFallback
    rw [if_neg (by simp [hC])]
    exact ⟨rfl, rfl, rfl⟩
  · obtain ⟨h1, h2, h3⟩ := hQ hC
    unfold applyFallback
    rw [if_pos (by simp [hC])]
    exact ⟨h1, h2, h3⟩

/-- Counterexample to claim C1 as stated: a run through the
Reasoning-Client-error escalation path (first pass collects one paper, second
pass throws; 2 iterations elapsed and one paper collected) returns a context
whose terminal summary fields are all unset. -/
theorem claimC1_terminal_fields_counterexample :
    (runResearchAgent envEscalation "t" "science" none {}).toOption.map
      (fun c => (c.iterations, c.collectedPapers.length,
        c.researchSummary, c.researchConfidence, c.frontierDetected))
      = some (2, 1, none, none, none) := by
  rfl

/-- Witness instantiating the amended claim C1 at a Reasoning Client that
immediately finishes with complete finish_research arguments. -/
theorem claimC1_terminal_fields_witness :
    (runResearchAgent envFinishFirst "t" "science" none {}).toOption.map
      (fun c => c.researchSummary.isSome && c.researchConfidence.isSome &&
        c.frontierDetected.isSome) = some true := by
  cases hrun : runResearchAgent envFinishFirst "t" "science" none {} with
  | error e => simp [runResearchAgent, envFinishFirst] at hrun
  | ok ctx =>
      obtain ⟨h1, h2, h3⟩ := claimC1_terminal_fields envFinishFirst "t" "science" none {}
        (fun msgs e h => by exact Except.noConfusion h)
        (fun msgs parts hp c hc hname => by
          injection hp with hp
          subst hp
          simp only [extractToolCalls, List.filterMap] at hc
          simp at hc
          subst hc
          exact ⟨rfl, rfl, rfl⟩)
        ctx hrun
      simp [Except.toOption, h1, h2, h3]

end EdgeOfKnowledge
